import Mathlib

/-!
Verification of the ledger-and-lifecycle engine of the Stock-management
repository.  The definitions below are a shallow embedding of the JavaScript
source: models (src/models/ActionLog.js invoice schema, src/models/Purchase.js,
src/models/Product.js, src/models/StockMovement.js, src/models/Quotation.js,
src/unnamed/part_004 supplier schema) and controllers
(src/controllers/invoiceController.js, src/controllers/dashboardController.js,
src/controllers/quotationController.js, src/unnamed/part_001 purchase
controller).  Monetary amounts and quantities are rationals; dates are modelled
as set/unset flags, since no claim depends on clock values.
-/

namespace StockMgmt

/-- JS Math.round half-up rounding to 2 decimals, as in
roundedAmount = Math.round(grandTotal * 100) / 100.
Math.round t = floor (t + 1/2) for every real t, ties going toward plus
infinity exactly as in JS. -/
def jsRound2 (x : ℚ) : ℚ :=
  (⌊x * 100 + 1 / 2⌋ : ℚ) / 100

/-- Movement type enum of stockMovementSchema (values in, out, adjustment). -/
inductive MvType
| tIn
| tOut
| tAdjustment
deriving DecidableEq, Repr

/-- Movement reason enum of stockMovementSchema; ret stands for the value
called return in the source. -/
inductive MvReason
| purchase
| sale
| ret
| damage
| loss
| theft
| expired
| transfer
| correction
| initialStock
deriving DecidableEq, Repr

/-- referenceType enum of stockMovementSchema. -/
inductive RefType
| purchase
| purchaseOrder
| invoice
| adjustment
| ret
| other
deriving DecidableEq, Repr

/-- Product stock aggregate (src/models/Product.js): only the two fields the
claims are about; the remaining schema fields (name, sku, category, dates,
history and so on) carry no ledger logic. -/
structure Product where
  currentStock : ℚ
  averageCost : ℚ
deriving DecidableEq, Repr

/-- A stock movement document (src/models/StockMovement.js).  Product,
supplier, user references and the referenced document are ids; dates are
abstract tick values. -/
structure Mv where
  product : Nat
  type : MvType
  reason : MvReason
  quantity : ℚ
  previousStock : ℚ
  newStock : ℚ
  unitCost : Option ℚ := none
  totalCost : Option ℚ := none
  supplier : Option Nat := none
  batchNumber : Option String := none
  lotNumber : Option String := none
  expiryDate : Option Nat := none
  referenceType : Option RefType := none
  referenceNumber : Option String := none
  referenceDocument : Option Nat := none
  notes : Option String := none
  performedBy : Nat := 0
  movementDate : Option Nat := none
deriving DecidableEq, Repr

/-- The fields of a movement that the confirm and auto-confirm paths both set
identically (everything except the free-text notes, which differ between the
two code paths). -/
structure MvCore where
  product : Nat
  type : MvType
  reason : MvReason
  quantity : ℚ
  previousStock : ℚ
  newStock : ℚ
  unitCost : Option ℚ
  totalCost : Option ℚ
  referenceType : Option RefType
  performedBy : Nat
deriving DecidableEq, Repr

/-- Projection to the core fields. -/
def Mv.core (m : Mv) : MvCore :=
  { product := m.product, type := m.type, reason := m.reason,
    quantity := m.quantity, previousStock := m.previousStock,
    newStock := m.newStock, unitCost := m.unitCost, totalCost := m.totalCost,
    referenceType := m.referenceType, performedBy := m.performedBy }

/-- Tax code enum of the item schemas (values A, B, None). -/
inductive TaxCode
| tA
| tB
| tNone
deriving DecidableEq, Repr

/-- Payment method enum of the payment sub-schemas. -/
inductive PayMethod
| cash
| card
| bankTransfer
| cheque
| mobileMoney
| credit
deriving DecidableEq, Repr

/-- A payment entry (paymentSchema / purchasePaymentSchema). -/
structure Payment where
  amount : ℚ
  paymentMethod : PayMethod
  recordedBy : Nat
deriving DecidableEq, Repr

/-- Invoice line item (invoiceItemSchema in src/models/ActionLog.js). -/
structure InvoiceItem where
  product : Nat
  quantity : ℚ
  unitPrice : ℚ
  discount : ℚ
  taxCode : TaxCode
  taxRate : ℚ
  taxAmount : ℚ
  subtotal : ℚ
  totalWithTax : ℚ
deriving DecidableEq, Repr

/-- Invoice status enum; partly stands for the source value partial. -/
inductive InvStatus
| draft
| confirmed
| partly
| paid
| cancelled
deriving DecidableEq, Repr

/-- Invoice document (invoiceSchema in src/models/ActionLog.js); date fields
are modelled as set/unset flags. -/
structure Invoice where
  client : Nat
  status : InvStatus
  items : List InvoiceItem
  totalAEx : ℚ := 0
  totalB18 : ℚ := 0
  totalTaxA : ℚ := 0
  totalTaxB : ℚ := 0
  subtotal : ℚ := 0
  totalDiscount : ℚ := 0
  totalTax : ℚ := 0
  grandTotal : ℚ := 0
  roundedAmount : ℚ := 0
  amountPaid : ℚ := 0
  balance : ℚ := 0
  payments : List Payment := []
  stockDeducted : Bool := false
  quotation : Option Nat := none
  confirmedBy : Option Nat := none
  confirmedDateSet : Bool := false
  paidDateSet : Bool := false
  cancelledBy : Option Nat := none
  cancelledDateSet : Bool := false
  cancellationReason : Option String := none
deriving DecidableEq, Repr

/-- Purchase line item (purchaseItemSchema in src/models/Purchase.js). -/
structure PurchaseItem where
  product : Nat
  quantity : ℚ
  unitCost : ℚ
  discount : ℚ
  taxCode : TaxCode
  taxRate : ℚ
  taxAmount : ℚ
  subtotal : ℚ
  totalWithTax : ℚ
deriving DecidableEq, Repr

/-- Purchase status enum; partly stands for the source value partial. -/
inductive PurStatus
| draft
| ordered
| received
| partly
| paid
| cancelled
deriving DecidableEq, Repr

/-- Purchase document (purchaseSchema in src/models/Purchase.js). -/
structure Purchase where
  supplier : Nat
  status : PurStatus
  items : List PurchaseItem
  totalAEx : ℚ := 0
  totalB18 : ℚ := 0
  totalTaxA : ℚ := 0
  totalTaxB : ℚ := 0
  subtotal : ℚ := 0
  totalDiscount : ℚ := 0
  totalTax : ℚ := 0
  grandTotal : ℚ := 0
  roundedAmount : ℚ := 0
  amountPaid : ℚ := 0
  balance : ℚ := 0
  payments : List Payment := []
  stockAdded : Bool := false
  receivedDateSet : Bool := false
  confirmedBy : Option Nat := none
  confirmedDateSet : Bool := false
  paidDateSet : Bool := false
  cancelledBy : Option Nat := none
  cancelledDateSet : Bool := false
  cancellationReason : Option String := none
deriving DecidableEq, Repr

/-- Client document (src/models part after Product.js): the two derived
running totals the invoice controller updates. -/
structure Client where
  outstandingBalance : ℚ
  totalPurchases : ℚ
deriving DecidableEq, Repr

/-! ## Totals and the pre-save hooks

The invoice totals hook (src/models/ActionLog.js lines 257 to 315) and the
purchase totals hook (src/models/Purchase.js lines 214 to 263): when the item
list is nonempty they recompute every item total, the tax buckets, the legacy
totals, roundedAmount and balance; afterwards (items empty or not) they
override the status from amountPaid and roundedAmount. -/

/-- Net amount of an invoice item inside the hook:
quantity times unitPrice minus discount. -/
def itemNet (it : StockMgmt.InvoiceItem) : ℚ :=
  it.quantity * it.unitPrice - it.discount

/-- Item recomputation done by the invoice hook on each item. -/
def hookItem (it : StockMgmt.InvoiceItem) : StockMgmt.InvoiceItem :=
  let sub := it.quantity * it.unitPrice
  let tax := itemNet it * (it.taxRate / 100)
  { it with subtotal := sub, taxAmount := tax, totalWithTax := itemNet it + tax }

/-- Bucket A net total of the invoice hook. -/
def invTotalAEx (items : List StockMgmt.InvoiceItem) : ℚ :=
  ((items.filter (fun it => it.taxCode = StockMgmt.TaxCode.tA)).map itemNet).sum

/-- Bucket B net total of the invoice hook. -/
def invTotalB18 (items : List StockMgmt.InvoiceItem) : ℚ :=
  ((items.filter (fun it => it.taxCode = StockMgmt.TaxCode.tB)).map itemNet).sum

/-- Bucket A tax total of the invoice hook. -/
def invTotalTaxA (items : List StockMgmt.InvoiceItem) : ℚ :=
  ((items.filter (fun it => it.taxCode = StockMgmt.TaxCode.tA)).map
    (fun it => itemNet it * (it.taxRate / 100))).sum

/-- Bucket B tax total of the invoice hook. -/
def invTotalTaxB (items : List StockMgmt.InvoiceItem) : ℚ :=
  ((items.filter (fun it => it.taxCode = StockMgmt.TaxCode.tB)).map
    (fun it => itemNet it * (it.taxRate / 100))).sum

/-- Document subtotal: sum of the recomputed item subtotals. -/
def invSubtotal (items : List StockMgmt.InvoiceItem) : ℚ :=
  (items.map (fun it => it.quantity * it.unitPrice)).sum

/-- Document discount total. -/
def invTotalDiscount (items : List StockMgmt.InvoiceItem) : ℚ :=
  (items.map (fun it => it.discount)).sum

/-- grandTotal = subtotal - totalDiscount + totalTax. -/
def invGrand (items : List StockMgmt.InvoiceItem) : ℚ :=
  invSubtotal items - invTotalDiscount items + (invTotalTaxA items + invTotalTaxB items)

/-- roundedAmount = Math.round(grandTotal * 100) / 100. -/
def invRounded (items : List StockMgmt.InvoiceItem) : ℚ :=
  StockMgmt.jsRound2 (invGrand items)

/-- First half of the invoice pre-save hook
(src/models/ActionLog.js lines 257 to 303): when the item list is nonempty,
recompute every item total, the tax buckets, the legacy totals,
roundedAmount and balance. -/
def invoiceRecomputeTotals (inv : Invoice) : Invoice :=
  if inv.items = [] then inv
  else
    { inv with
      items := inv.items.map hookItem,
      totalAEx := invTotalAEx inv.items,
      totalB18 := invTotalB18 inv.items,
      totalTaxA := invTotalTaxA inv.items,
      totalTaxB := invTotalTaxB inv.items,
      subtotal := invSubtotal inv.items,
      totalDiscount := invTotalDiscount inv.items,
      totalTax := invTotalTaxA inv.items + invTotalTaxB inv.items,
      grandTotal := invGrand inv.items,
      roundedAmount := invRounded inv.items,
      balance := invRounded inv.items - inv.amountPaid }

/-- Second half of the invoice pre-save hook
(src/models/ActionLog.js lines 304 to 315): the status override from
amountPaid and roundedAmount, run on every save after any controller
assignment. -/
def invoiceApplyStatus (inv : Invoice) : Invoice :=
  if inv.amountPaid ≥ inv.roundedAmount ∧ inv.roundedAmount > 0 then
    { inv with status := .paid, paidDateSet := true }
  else if 0 < inv.amountPaid ∧ inv.amountPaid < inv.roundedAmount then
    { inv with status := .partly }
  else inv

/-- The full invoice pre-save totals/status hook. -/
def invoiceSaveHook (inv : Invoice) : Invoice :=
  invoiceApplyStatus (invoiceRecomputeTotals inv)

/-- Net amount of a purchase item inside the purchase hook. -/
def purItemNet (it : StockMgmt.PurchaseItem) : ℚ :=
  it.quantity * it.unitCost - it.discount

/-- Item recomputation done by the purchase hook on each item. -/
def purHookItem (it : StockMgmt.PurchaseItem) : StockMgmt.PurchaseItem :=
  let sub := it.quantity * it.unitCost
  let tax := purItemNet it * (it.taxRate / 100)
  { it with subtotal := sub, taxAmount := tax, totalWithTax := purItemNet it + tax }

/-- Bucket A net total of the purchase hook. -/
def purTotalAEx (items : List StockMgmt.PurchaseItem) : ℚ :=
  ((items.filter (fun it => it.taxCode = StockMgmt.TaxCode.tA)).map purItemNet).sum

/-- Bucket B net total of the purchase hook. -/
def purTotalB18 (items : List StockMgmt.PurchaseItem) : ℚ :=
  ((items.filter (fun it => it.taxCode = StockMgmt.TaxCode.tB)).map purItemNet).sum

/-- Bucket A tax total of the purchase hook. -/
def purTotalTaxA (items : List StockMgmt.PurchaseItem) : ℚ :=
  ((items.filter (fun it => it.taxCode = StockMgmt.TaxCode.tA)).map
    (fun it => purItemNet it * (it.taxRate / 100))).sum

/-- Bucket B tax total of the purchase hook. -/
def purTotalTaxB (items : List StockMgmt.PurchaseItem) : ℚ :=
  ((items.filter (fun it => it.taxCode = StockMgmt.TaxCode.tB)).map
    (fun it => purItemNet it * (it.taxRate / 100))).sum

/-- Purchase document subtotal. -/
def purSubtotal (items : List StockMgmt.PurchaseItem) : ℚ :=
  (items.map (fun it => it.quantity * it.unitCost)).sum

/-- Purchase document discount total. -/
def purTotalDiscount (items : List StockMgmt.PurchaseItem) : ℚ :=
  (items.map (fun it => it.discount)).sum

/-- Purchase grandTotal. -/
def purGrand (items : List StockMgmt.PurchaseItem) : ℚ :=
  purSubtotal items - purTotalDiscount items + (purTotalTaxA items + purTotalTaxB items)

/-- Purchase roundedAmount. -/
def purRounded (items : List StockMgmt.PurchaseItem) : ℚ :=
  StockMgmt.jsRound2 (purGrand items)

/-- First half of the purchase pre-save hook
(src/models/Purchase.js lines 214 to 250). -/
def purchaseRecomputeTotals (pur : Purchase) : Purchase :=
  if pur.items = [] then pur
  else
    { pur with
      items := pur.items.map purHookItem,
      totalAEx := purTotalAEx pur.items,
      totalB18 := purTotalB18 pur.items,
      totalTaxA := purTotalTaxA pur.items,
      totalTaxB := purTotalTaxB pur.items,
      subtotal := purSubtotal pur.items,
      totalDiscount := purTotalDiscount pur.items,
      totalTax := purTotalTaxA pur.items + purTotalTaxB pur.items,
      grandTotal := purGrand pur.items,
      roundedAmount := purRounded pur.items,
      balance := purRounded pur.items - pur.amountPaid }

/-- Second half of the purchase pre-save hook
(src/models/Purchase.js lines 252 to 263): the status override. -/
def purchaseApplyStatus (pur : Purchase) : Purchase :=
  if pur.amountPaid ≥ pur.roundedAmount ∧ pur.roundedAmount > 0 then
    { pur with status := .paid, paidDateSet := true }
  else if 0 < pur.amountPaid ∧ pur.amountPaid < pur.roundedAmount then
    { pur with status := .partly }
  else pur

/-- The full purchase pre-save totals/status hook. -/
def purchaseSaveHook (pur : Purchase) : Purchase :=
  purchaseApplyStatus (purchaseRecomputeTotals pur)

/-! ## The product repository -/

/-- The persisted products, keyed by id. -/
abbrev ProductMap := List (Nat × Product)

/-- Product.findById. -/
def getProduct : ProductMap → Nat → Option Product
  | [], _ => none
  | e :: rest, pid => if e.1 = pid then some e.2 else getProduct rest pid

/-- product.save: persist the document with the given id. -/
def setProduct : ProductMap → Nat → Product → ProductMap
  | [], _, _ => []
  | e :: rest, pid, p =>
    if e.1 = pid then (pid, p) :: setProduct rest pid p
    else e :: setProduct rest pid p

/-! ## The three average-cost update rules found in the source -/

/-- Stock and cost update of receiveStock
(src/controllers/dashboardController.js lines 458 to 492): the weighted blend
is applied unconditionally, with no zero-average special case. -/
def receiveStockCost (p : Product) (q c : ℚ) : Product :=
  let newStock := p.currentStock + q
  let totalValue := p.currentStock * p.averageCost + q * c
  { currentStock := newStock, averageCost := totalValue / newStock }

/-- Stock and cost update of receivePurchase
(src/unnamed/part_001 lines 244 to 284): unitCost when the stored average is
zero (the JS test is falsiness of averageCost, whose schema default is 0),
otherwise the weighted blend. -/
def receivePurchaseCost (p : Product) (q c : ℚ) : Product :=
  let newStock := p.currentStock + q
  { currentStock := newStock,
    averageCost :=
      if p.averageCost = 0 then c
      else (p.averageCost * p.currentStock + c * q) / newStock }

/-- Stock and cost update of the auto-receive branch of the purchase payment
handler (src/unnamed/part_001 lines 355 to 394): the average cost is set to
unitCost only when it was zero and is otherwise left unchanged; no blend. -/
def autoReceiveCost (p : Product) (q c : ℚ) : Product :=
  { currentStock := p.currentStock + q,
    averageCost := if p.averageCost = 0 then c else p.averageCost }

/-! ## System state and operations

One persisted store with the products, the movement ledger (in creation
order), one focal invoice with its client, and one focal purchase.  Every
handler returns the resulting store together with the reported error, if any;
there are no transactions in the source, so a handler that errors mid-loop
keeps the mutations it already persisted. -/

/-- The errors the embedded handlers report. -/
inductive Err
| invalidStatus
| productNotFound
| insufficientStock
| cancelledDoc
| paymentExceedsBalance
| cannotCancelPaid
| invalidReason
| invalidType
| movementNotFound
deriving DecidableEq, Repr

/-- The persisted store. -/
structure St where
  products : ProductMap
  movements : List Mv
  invoice : Invoice
  client : Option Client
  purchase : Purchase
deriving DecidableEq, Repr

/-- The stock loop of confirmInvoice
(src/controllers/invoiceController.js lines 287 to 329): for each item it
re-checks the product and its stock and early-returns on failure, keeping the
movements and product saves already performed for earlier items. -/
def confirmLoop (uid : Nat) :
    List InvoiceItem → ProductMap → List Mv → ProductMap × List Mv × Option Err
  | [], ps, ms => (ps, ms, none)
  | it :: rest, ps, ms =>
    match getProduct ps it.product with
    | none => (ps, ms, some .productNotFound)
    | some p =>
      if p.currentStock < it.quantity then (ps, ms, some .insufficientStock)
      else
        let prev := p.currentStock
        let m : Mv :=
          { product := it.product, type := .tOut, reason := .sale,
            quantity := it.quantity, previousStock := prev,
            newStock := prev - it.quantity,
            unitCost := some it.unitPrice, totalCost := some it.totalWithTax,
            referenceType := some .invoice, performedBy := uid,
            notes := some "Invoice - Sale" }
        confirmLoop uid rest
          (setProduct ps it.product { p with currentStock := prev - it.quantity })
          (ms ++ [m])

/-- confirmInvoice (src/controllers/invoiceController.js lines 268 to 363). -/
def confirmInvoice (st : St) (uid : Nat) : St × Option Err :=
  if st.invoice.status ≠ .draft then (st, some .invalidStatus)
  else
    match confirmLoop uid st.invoice.items st.products st.movements with
    | (ps, ms, some e) => ({ st with products := ps, movements := ms }, some e)
    | (ps, ms, none) =>
      let inv := invoiceSaveHook
        { st.invoice with
          status := .confirmed, stockDeducted := true,
          confirmedDateSet := true, confirmedBy := some uid }
      let cl :=
        match st.client with
        | none => none
        | some c =>
          some { c with outstandingBalance := c.outstandingBalance + inv.roundedAmount }
      ({ st with products := ps, movements := ms, invoice := inv, client := cl }, none)

/-- The auto-confirm stock loop of the invoice payment handler
(src/controllers/invoiceController.js lines 407 to 444): an item whose
product is missing or whose stock is insufficient is silently skipped, and
the loop never fails. -/
def autoDeductLoop (uid : Nat) :
    List InvoiceItem → ProductMap → List Mv → ProductMap × List Mv
  | [], ps, ms => (ps, ms)
  | it :: rest, ps, ms =>
    match getProduct ps it.product with
    | none => autoDeductLoop uid rest ps ms
    | some p =>
      if p.currentStock ≥ it.quantity then
        let prev := p.currentStock
        let m : Mv :=
          { product := it.product, type := .tOut, reason := .sale,
            quantity := it.quantity, previousStock := prev,
            newStock := prev - it.quantity,
            unitCost := some it.unitPrice, totalCost := some it.totalWithTax,
            referenceType := some .invoice, performedBy := uid,
            notes := some "Sale via invoice" }
        autoDeductLoop uid rest
          (setProduct ps it.product { p with currentStock := prev - it.quantity })
          (ms ++ [m])
      else autoDeductLoop uid rest ps ms

/-- recordPayment for invoices
(src/controllers/invoiceController.js lines 368 to 466). -/
def recordInvoicePayment (st : St) (uid : Nat) (amount : ℚ) (method : PayMethod) :
    St × Option Err :=
  if st.invoice.status = .cancelled then (st, some .cancelledDoc)
  else if amount > st.invoice.balance then (st, some .paymentExceedsBalance)
  else
    let inv0 :=
      { st.invoice with
        payments := st.invoice.payments ++ [⟨amount, method, uid⟩],
        amountPaid := st.invoice.amountPaid + amount }
    let res :=
      if ¬ inv0.stockDeducted ∧ inv0.status = .draft then
        let pm := autoDeductLoop uid inv0.items st.products st.movements
        (pm.1, pm.2,
          { inv0 with
            stockDeducted := true, status := .confirmed,
            confirmedDateSet := true, confirmedBy := some uid })
      else (st.products, st.movements, inv0)
    let cl :=
      match st.client with
      | none => none
      | some c =>
        let ob := c.outstandingBalance - amount
        some { c with
          totalPurchases := c.totalPurchases + amount,
          outstandingBalance := if ob < 0 then 0 else ob }
    ({ st with
        products := res.1, movements := res.2.1,
        invoice := invoiceSaveHook res.2.2, client := cl }, none)

/-- The stock reversal loop of cancelInvoice
(src/controllers/invoiceController.js lines 492 to 523): one compensating
in/return movement per item whose product still exists, no stock check. -/
def cancelInvLoop (uid : Nat) :
    List InvoiceItem → ProductMap → List Mv → ProductMap × List Mv
  | [], ps, ms => (ps, ms)
  | it :: rest, ps, ms =>
    match getProduct ps it.product with
    | none => cancelInvLoop uid rest ps ms
    | some p =>
      let prev := p.currentStock
      let m : Mv :=
        { product := it.product, type := .tIn, reason := .ret,
          quantity := it.quantity, previousStock := prev,
          newStock := prev + it.quantity,
          unitCost := some it.unitPrice, totalCost := some it.totalWithTax,
          referenceType := some .invoice, performedBy := uid,
          notes := some "Invoice cancelled - Stock reversal" }
      cancelInvLoop uid rest
        (setProduct ps it.product { p with currentStock := prev + it.quantity })
        (ms ++ [m])

/-- cancelInvoice (src/controllers/invoiceController.js lines 471 to 549).
The handler assigns status cancelled and then saves, so the totals/status
hook runs afterwards. -/
def cancelInvoice (st : St) (uid : Nat) (reason : String) : St × Option Err :=
  if st.invoice.status = .paid then (st, some .cannotCancelPaid)
  else
    let pm :=
      if st.invoice.stockDeducted then
        cancelInvLoop uid st.invoice.items st.products st.movements
      else (st.products, st.movements)
    let cl :=
      match st.client with
      | none => none
      | some c =>
        let unpaid := st.invoice.roundedAmount - st.invoice.amountPaid
        let ob := c.outstandingBalance - unpaid
        some { c with outstandingBalance := if ob < 0 then 0 else ob }
    let inv := invoiceSaveHook
      { st.invoice with
        status := .cancelled, cancelledDateSet := true,
        cancelledBy := some uid, cancellationReason := some reason }
    ({ st with products := pm.1, movements := pm.2, invoice := inv, client := cl }, none)

/-- The stock loop of receivePurchase (src/unnamed/part_001 lines 244 to
284): one in/purchase movement per item whose product exists, then
receivePurchaseCost updates stock and the weighted average cost. -/
def receiveLoop (uid supplierId : Nat) :
    List PurchaseItem → ProductMap → List Mv → ProductMap × List Mv
  | [], ps, ms => (ps, ms)
  | it :: rest, ps, ms =>
    match getProduct ps it.product with
    | none => receiveLoop uid supplierId rest ps ms
    | some p =>
      let prev := p.currentStock
      let m : Mv :=
        { product := it.product, type := .tIn, reason := .purchase,
          quantity := it.quantity, previousStock := prev,
          newStock := prev + it.quantity,
          unitCost := some it.unitCost, totalCost := some it.totalWithTax,
          supplier := some supplierId,
          referenceType := some .purchase, performedBy := uid,
          notes := some "Purchase - receive" }
      receiveLoop uid supplierId rest
        (setProduct ps it.product (receivePurchaseCost p it.quantity it.unitCost))
        (ms ++ [m])

/-- receivePurchase (src/unnamed/part_001 lines 225 to 311).  The supplier
stats update of lines 294 to 301 is modelled separately for claim C9, since
the supplier schema cannot persist one of the two written fields. -/
def receivePurchase (st : St) (uid : Nat) : St × Option Err :=
  if st.purchase.status ≠ .draft ∧ st.purchase.status ≠ .ordered then
    (st, some .invalidStatus)
  else
    let pm := receiveLoop uid st.purchase.supplier st.purchase.items
      st.products st.movements
    let pur := purchaseSaveHook
      { st.purchase with
        status := .received, stockAdded := true, receivedDateSet := true,
        confirmedDateSet := true, confirmedBy := some uid }
    ({ st with products := pm.1, movements := pm.2, purchase := pur }, none)

/-- The auto-receive stock loop of the purchase payment handler
(src/unnamed/part_001 lines 355 to 394): one movement per item whose product
exists, autoReceiveCost never re-blends the average cost. -/
def autoReceiveLoop (uid supplierId : Nat) :
    List PurchaseItem → ProductMap → List Mv → ProductMap × List Mv
  | [], ps, ms => (ps, ms)
  | it :: rest, ps, ms =>
    match getProduct ps it.product with
    | none => autoReceiveLoop uid supplierId rest ps ms
    | some p =>
      let prev := p.currentStock
      let m : Mv :=
        { product := it.product, type := .tIn, reason := .purchase,
          quantity := it.quantity, previousStock := prev,
          newStock := prev + it.quantity,
          unitCost := some it.unitCost, totalCost := some it.totalWithTax,
          supplier := some supplierId,
          referenceType := some .purchase, performedBy := uid,
          notes := some "Purchase" }
      autoReceiveLoop uid supplierId rest
        (setProduct ps it.product (autoReceiveCost p it.quantity it.unitCost))
        (ms ++ [m])

/-- recordPayment for purchases (src/unnamed/part_001 lines 316 to 418): the
auto-receive branch fires only for a draft purchase with stock not yet added
and payment method cash or card. -/
def recordPurchasePayment (st : St) (uid : Nat) (amount : ℚ) (method : PayMethod) :
    St × Option Err :=
  if st.purchase.status = .cancelled then (st, some .cancelledDoc)
  else if amount > st.purchase.balance then (st, some .paymentExceedsBalance)
  else
    let pur0 :=
      { st.purchase with
        payments := st.purchase.payments ++ [⟨amount, method, uid⟩],
        amountPaid := st.purchase.amountPaid + amount }
    let res :=
      if ¬ pur0.stockAdded ∧ pur0.status = .draft ∧
          (method = .cash ∨ method = .card) then
        let pm := autoReceiveLoop uid pur0.supplier pur0.items
          st.products st.movements
        (pm.1, pm.2,
          { pur0 with stockAdded := true, status := .received, receivedDateSet := true })
      else (st.products, st.movements, pur0)
    ({ st with
        products := res.1, movements := res.2.1,
        purchase := purchaseSaveHook res.2.2 }, none)

/-- The stock reversal loop of cancelPurchase
(src/unnamed/part_001 lines 444 to 474): the reversal is an out/return
movement whose newStock is clamped at zero with Math.max. -/
def cancelPurLoop (uid : Nat) :
    List PurchaseItem → ProductMap → List Mv → ProductMap × List Mv
  | [], ps, ms => (ps, ms)
  | it :: rest, ps, ms =>
    match getProduct ps it.product with
    | none => cancelPurLoop uid rest ps ms
    | some p =>
      let prev := p.currentStock
      let ns := max 0 (prev - it.quantity)
      let m : Mv :=
        { product := it.product, type := .tOut, reason := .ret,
          quantity := it.quantity, previousStock := prev, newStock := ns,
          unitCost := some it.unitCost, totalCost := some it.totalWithTax,
          referenceType := some .purchase, performedBy := uid,
          notes := some "Purchase cancelled - Stock reversal" }
      cancelPurLoop uid rest
        (setProduct ps it.product { p with currentStock := ns })
        (ms ++ [m])

/-- cancelPurchase (src/unnamed/part_001 lines 423 to 500). -/
def cancelPurchase (st : St) (uid : Nat) (reason : String) : St × Option Err :=
  if st.purchase.status = .paid then (st, some .cannotCancelPaid)
  else
    let pm :=
      if st.purchase.stockAdded then
        cancelPurLoop uid st.purchase.items st.products st.movements
      else (st.products, st.movements)
    let pur := purchaseSaveHook
      { st.purchase with
        status := .cancelled, cancelledDateSet := true,
        cancelledBy := some uid, cancellationReason := some reason }
    ({ st with products := pm.1, movements := pm.2, purchase := pur }, none)

/-- receiveStock (src/controllers/dashboardController.js lines 458 to 492):
movement plus unconditional weighted-average update via receiveStockCost. -/
def receiveStock (st : St) (uid pid : Nat) (q c : ℚ) (supplierId : Option Nat) :
    St × Option Err :=
  match getProduct st.products pid with
  | none => (st, some .productNotFound)
  | some p =>
    let m : Mv :=
      { product := pid, type := .tIn, reason := .purchase,
        quantity := q, previousStock := p.currentStock,
        newStock := p.currentStock + q,
        unitCost := some c, totalCost := some (q * c), supplier := supplierId,
        referenceType := some .purchaseOrder, performedBy := uid }
    ({ st with
        movements := st.movements ++ [m],
        products := setProduct st.products pid (receiveStockCost p q c) }, none)

/-- Direction argument of adjustStock. -/
inductive AdjDir
| adjIn
| adjOut
deriving DecidableEq, Repr

/-- The reasons adjustStock accepts. -/
def validAdjReasons : List MvReason :=
  [.damage, .loss, .theft, .expired, .correction, .transfer]

/-- adjustStock (src/controllers/dashboardController.js lines 521 to 595):
movement of type adjustment; an out adjustment larger than the current stock
is rejected before any mutation. -/
def adjustStock (st : St) (uid pid : Nat) (q : ℚ) (dir : AdjDir) (reason : MvReason) :
    St × Option Err :=
  if ¬ validAdjReasons.contains reason then (st, some .invalidReason)
  else
    match getProduct st.products pid with
    | none => (st, some .productNotFound)
    | some p =>
      let prev := p.currentStock
      match dir with
      | .adjIn =>
        let m : Mv :=
          { product := pid, type := .tAdjustment, reason := reason,
            quantity := q, previousStock := prev, newStock := prev + q,
            referenceType := some .adjustment, performedBy := uid }
        ({ st with
            movements := st.movements ++ [m],
            products := setProduct st.products pid { p with currentStock := prev + q } },
          none)
      | .adjOut =>
        if q > prev then (st, some .insufficientStock)
        else
          let m : Mv :=
            { product := pid, type := .tAdjustment, reason := reason,
              quantity := q, previousStock := prev, newStock := prev - q,
              referenceType := some .adjustment, performedBy := uid }
          ({ st with
              movements := st.movements ++ [m],
              products := setProduct st.products pid { p with currentStock := prev - q } },
            none)

/-- deleteStockMovement (src/controllers/dashboardController.js lines 689 to
710): the product stock is reverted to the previousStock snapshot of the
deleted movement, not by a compensating delta. -/
def deleteStockMovement (st : St) (idx : Nat) : St × Option Err :=
  match st.movements[idx]? with
  | none => (st, some .movementNotFound)
  | some m =>
    let ps :=
      match getProduct st.products m.product with
      | none => st.products
      | some p => setProduct st.products m.product { p with currentStock := m.previousStock }
    ({ st with products := ps, movements := st.movements.eraseIdx idx }, none)

/-- The request body of updateStockMovement: one optional value per allowed
metadata field. -/
structure MvPatch where
  notes : Option String := none
  referenceNumber : Option String := none
  referenceType : Option RefType := none
  batchNumber : Option String := none
  lotNumber : Option String := none
  expiryDate : Option Nat := none
  unitCost : Option ℚ := none
  totalCost : Option ℚ := none
  supplier : Option Nat := none
  movementDate : Option Nat := none
deriving DecidableEq, Repr

/-- A body field overrides the stored one only when the body defines it. -/
def patchField {α : Type} (new old : Option α) : Option α :=
  match new with
  | some v => some v
  | none => old

/-- The field copy of updateStockMovement
(src/controllers/dashboardController.js lines 715 to 740): exactly the ten
allow-listed metadata fields. -/
def applyMvPatch (m : Mv) (b : MvPatch) : Mv :=
  { m with
    notes := patchField b.notes m.notes,
    referenceNumber := patchField b.referenceNumber m.referenceNumber,
    referenceType := patchField b.referenceType m.referenceType,
    batchNumber := patchField b.batchNumber m.batchNumber,
    lotNumber := patchField b.lotNumber m.lotNumber,
    expiryDate := patchField b.expiryDate m.expiryDate,
    unitCost := patchField b.unitCost m.unitCost,
    totalCost := patchField b.totalCost m.totalCost,
    supplier := patchField b.supplier m.supplier,
    movementDate := patchField b.movementDate m.movementDate }

/-- updateStockMovement as a store operation: the movement is looked up,
patched and saved; nothing else is touched. -/
def updateStockMovement (st : St) (idx : Nat) (b : MvPatch) : St × Option Err :=
  match st.movements[idx]? with
  | none => (st, some .movementNotFound)
  | some m =>
    ({ st with movements := st.movements.set idx (applyMvPatch m b) }, none)

/-! ## Traces -/

/-- One request against the store. -/
inductive Op
| opReceiveStock (uid pid : Nat) (q c : ℚ) (supplierId : Option Nat)
| opAdjustStock (uid pid : Nat) (q : ℚ) (dir : AdjDir) (reason : MvReason)
| opDeleteMovement (idx : Nat)
| opUpdateMovement (idx : Nat) (b : MvPatch)
| opConfirmInvoice (uid : Nat)
| opInvoicePayment (uid : Nat) (amount : ℚ) (method : PayMethod)
| opCancelInvoice (uid : Nat) (reason : String)
| opReceivePurchase (uid : Nat)
| opPurchasePayment (uid : Nat) (amount : ℚ) (method : PayMethod)
| opCancelPurchase (uid : Nat) (reason : String)
deriving DecidableEq, Repr

/-- Dispatch one request. -/
def step (st : St) : Op → St × Option Err
  | .opReceiveStock uid pid q c sid => receiveStock st uid pid q c sid
  | .opAdjustStock uid pid q dir reason => adjustStock st uid pid q dir reason
  | .opDeleteMovement idx => deleteStockMovement st idx
  | .opUpdateMovement idx b => updateStockMovement st idx b
  | .opConfirmInvoice uid => confirmInvoice st uid
  | .opInvoicePayment uid a m => recordInvoicePayment st uid a m
  | .opCancelInvoice uid r => cancelInvoice st uid r
  | .opReceivePurchase uid => receivePurchase st uid
  | .opPurchasePayment uid a m => recordPurchasePayment st uid a m
  | .opCancelPurchase uid r => cancelPurchase st uid r

/-- Run a list of requests, keeping each resulting store whether or not the
request reported an error (the source keeps partial mutations on error). -/
def run (st : St) : List Op → St
  | [] => st
  | op :: ops => run (step st op).1 ops

/-! ## Quotation conversion

src/models/Quotation.js and convertToInvoice in
src/controllers/quotationController.js lines 238 to 291.  Creation of the new
invoice goes through mongoose validation, which runs before any user pre-save
hook: required paths of invoiceItemSchema must already be present on the cast
item documents, because the totals hook cannot supply them. -/

/-- Quotation status enum. -/
inductive QStatus
| draft
| sent
| approved
| rejected
| converted
| expired
deriving DecidableEq, Repr

/-- Quotation line item (quotationItemSchema): note there is no totalWithTax
path and no taxCode path; the grand total of the line is called total. -/
structure QuotationItem where
  product : Nat
  quantity : ℚ
  unitPrice : ℚ
  discount : ℚ
  taxRate : ℚ
  subtotal : ℚ
  total : ℚ
deriving DecidableEq, Repr

/-- Quotation document (the fields conversion reads and writes). -/
structure Quotation where
  client : Nat
  status : QStatus
  items : List QuotationItem
  approvedBy : Option Nat := none
  convertedToInvoice : Option Nat := none
  conversionDateSet : Bool := false
deriving DecidableEq, Repr

/-- An item document as cast into invoiceItemSchema before validation:
required paths without a schema default stay absent when the input document
does not carry them. -/
structure CastInvoiceItem where
  product : Nat
  quantity : ℚ
  unitPrice : ℚ
  discount : ℚ
  taxCode : TaxCode
  taxRate : ℚ
  taxAmount : ℚ
  subtotal : Option ℚ
  totalWithTax : Option ℚ
deriving DecidableEq, Repr

/-- Casting a quotation item into invoiceItemSchema: subtotal carries over,
discount/taxRate carry over, taxCode and taxAmount take their schema defaults,
the quotation total path is dropped (not an invoice item path) and
totalWithTax stays absent because quotation items have no such path. -/
def castQuotationItem (it : QuotationItem) : CastInvoiceItem :=
  { product := it.product, quantity := it.quantity, unitPrice := it.unitPrice,
    discount := it.discount, taxCode := .tA, taxRate := it.taxRate,
    taxAmount := 0, subtotal := some it.subtotal, totalWithTax := none }

/-- Required-path validation of one cast invoice item: invoiceItemSchema
marks subtotal and totalWithTax required with no default. -/
def validCastItem (it : CastInvoiceItem) : Bool :=
  it.subtotal.isSome && it.totalWithTax.isSome

/-- Errors of the conversion handler. -/
inductive ConvErr
| notApproved
| alreadyConverted
| validationError
deriving DecidableEq, Repr

/-- Invoice.create on cast items: mongoose validates the document first
(required paths must be present) and only then runs the user pre-save hooks
(invoice number and totals), so a failing validation aborts the creation
before the totals hook could fill anything in. -/
def invoiceCreateFromCast (clientId qid : Nat) (items : List CastInvoiceItem) :
    Except Unit Invoice :=
  if items.all validCastItem then
    .ok (invoiceSaveHook
      { client := clientId, status := .draft, quotation := some qid,
        items := items.map (fun it =>
          { product := it.product, quantity := it.quantity,
            unitPrice := it.unitPrice, discount := it.discount,
            taxCode := it.taxCode, taxRate := it.taxRate,
            taxAmount := it.taxAmount, subtotal := it.subtotal.getD 0,
            totalWithTax := it.totalWithTax.getD 0 }) })
  else .error ()

/-- convertToInvoice (src/controllers/quotationController.js lines 238 to
291): status and idempotence guards, then Invoice.create from the quotation
items, then the quotation is stamped converted.  A thrown creation error
reaches the generic error handler with the quotation untouched. -/
def convertToInvoice (q : Quotation) (qid newInvId : Nat) :
    Except ConvErr (Quotation × Invoice) :=
  if q.status ≠ .approved then .error .notApproved
  else if q.convertedToInvoice.isSome then .error .alreadyConverted
  else
    match invoiceCreateFromCast q.client qid (q.items.map castQuotationItem) with
    | .error _ => .error .validationError
    | .ok inv =>
      .ok ({ q with
               status := .converted, convertedToInvoice := some newInvId,
               conversionDateSet := true }, inv)

/-! ## Supplier persistence

supplierSchema (src/unnamed/part_004) declares name, code, contact,
productsSupplied, paymentTerms, taxId, notes, isActive, totalPurchases,
lastPurchaseDate and createdBy.  Its only mutable numeric path is
totalPurchases; there is no outstandingBalance path.  Mongoose runs in strict
mode by default, so an assignment to an undeclared path on a supplier
document is dropped and never persisted.  The numeric slice of a supplier
document is modelled as a keyed record, and a save filters writes by the
declared paths. -/

/-- Numeric slice of a persisted supplier document. -/
abbrev SupplierDoc := List (String × ℚ)

/-- Read a path. -/
def sGet : SupplierDoc → String → Option ℚ
  | [], _ => none
  | e :: rest, k => if e.1 = k then some e.2 else sGet rest k

/-- The numeric paths supplierSchema declares. -/
def supplierNumericPaths : List String := ["totalPurchases"]

/-- Write or insert a declared path. -/
def sSetKey : SupplierDoc → String → ℚ → SupplierDoc
  | [], k, v => [(k, v)]
  | e :: rest, k, v =>
    if e.1 = k then (k, v) :: rest else e :: sSetKey rest k v

/-- A mongoose strict-mode write: assignments to paths outside the schema are
dropped. -/
def sSet (d : SupplierDoc) (k : String) (v : ℚ) : SupplierDoc :=
  if supplierNumericPaths.contains k then sSetKey d k v else d

/-- The supplier stats update of receivePurchase (src/unnamed/part_001 lines
294 to 301): totalPurchases += roundedAmount persists; the
outstandingBalance += roundedAmount write targets a path supplierSchema does
not declare and is dropped by strict mode. -/
def receivePurchaseSupplierUpdate (d : SupplierDoc) (rounded : ℚ) : SupplierDoc :=
  let d1 := sSet d "totalPurchases" ((sGet d "totalPurchases").getD 0 + rounded)
  sSet d1 "outstandingBalance" ((sGet d1 "outstandingBalance").getD 0 + rounded)

/-! ## Document creation

createInvoice (src/controllers/invoiceController.js lines 90 to 156) checks
stock availability for every item before creating; the draft document then
goes through the totals hook with the schema default amountPaid = 0.
createPurchase (src/unnamed/part_001 lines 81 to 130) has no stock check. -/

/-- The pre-create stock availability check of createInvoice. -/
def createInvoiceCheck (ps : ProductMap) : List InvoiceItem → Option Err
  | [] => none
  | it :: rest =>
    match getProduct ps it.product with
    | none => some .productNotFound
    | some p =>
      if p.currentStock < it.quantity then some .insufficientStock
      else createInvoiceCheck ps rest

/-- createInvoice: availability check, then the saved draft document. -/
def createInvoice (ps : ProductMap) (clientId : Nat) (items : List InvoiceItem) :
    Except Err Invoice :=
  match createInvoiceCheck ps items with
  | some e => .error e
  | none => .ok (invoiceSaveHook { client := clientId, status := .draft, items := items })

/-- createPurchase: the saved draft document. -/
def createPurchase (supplierId : Nat) (items : List PurchaseItem) : Purchase :=
  purchaseSaveHook { supplier := supplierId, status := .draft, items := items }

/-! ## Claim predicates -/

/-- The ledger formula claimed by the spec for every movement: newStock is
previousStock plus quantity on inbound movements and previousStock minus
quantity on outbound ones (an adjustment records no direction, so either
sign is allowed there). -/
def mvStrictFormulaB (m : Mv) : Bool :=
  match m.type with
  | .tIn => decide (m.newStock = m.previousStock + m.quantity)
  | .tOut => decide (m.newStock = m.previousStock - m.quantity)
  | .tAdjustment =>
    decide (m.newStock = m.previousStock + m.quantity) ||
    decide (m.newStock = m.previousStock - m.quantity)

/-- The ledger formula the code actually guarantees: as above, except that an
out/return movement (the cancelPurchase reversal) has its newStock clamped at
zero. -/
def mvFormulaB (m : Mv) : Bool :=
  match m.type with
  | .tIn => decide (m.newStock = m.previousStock + m.quantity)
  | .tOut =>
    if m.reason = .ret then decide (m.newStock = max 0 (m.previousStock - m.quantity))
    else decide (m.newStock = m.previousStock - m.quantity)
  | .tAdjustment =>
    decide (m.newStock = m.previousStock + m.quantity) ||
    decide (m.newStock = m.previousStock - m.quantity)

/-- The chain data of one movement: product, previousStock, newStock. -/
def chainKey (m : Mv) : Nat × ℚ × ℚ :=
  (m.product, m.previousStock, m.newStock)

/-- The chain data of a whole ledger. -/
def keysAll (ms : List Mv) : List (Nat × ℚ × ℚ) :=
  ms.map chainKey

/-- The before/after snapshots of the movements of one product, in ledger
order. -/
def keysFor (pid : Nat) (ms : List Mv) : List (ℚ × ℚ) :=
  ((keysAll ms).filter (fun k => k.1 = pid)).map (fun k => k.2)

/-- Adjacent snapshots agree: each movement starts at the stock the previous
one ended with. -/
def linkedQ : List (ℚ × ℚ) → Prop
  | [] => True
  | [_] => True
  | a :: b :: rest => b.1 = a.2 ∧ linkedQ (b :: rest)

/-- The final snapshot, when one exists, matches the given current stock. -/
def lastOk (l : List (ℚ × ℚ)) (s : ℚ) : Prop :=
  match l.getLast? with
  | none => True
  | some a => a.2 = s

/-- Per-product chain consistency of a ledger: for every existing product the
movement snapshots are gapless and end at the current stock. -/
def ChainPairOk (ps : ProductMap) (ms : List Mv) : Prop :=
  ∀ pid p, getProduct ps pid = some p →
    linkedQ (keysFor pid ms) ∧ lastOk (keysFor pid ms) p.currentStock

/-- Chain consistency of a store. -/
def ChainOk (st : St) : Prop :=
  ChainPairOk st.products st.movements

/-- Every movement of a ledger satisfies the guaranteed stock formula. -/
def MovesOk (ms : List Mv) : Prop :=
  ∀ m ∈ ms, mvFormulaB m = true

/-- Total quantity the invoice items ask of one product. -/
def qtyForInv (pid : Nat) (items : List InvoiceItem) : ℚ :=
  ((items.filter (fun it => it.product = pid)).map (fun it => it.quantity)).sum

/-- Requests whose payment amounts are non-negative (the payment sub-schemas
declare min 0, so a negative amount would not validate). -/
def opWF : Op → Prop
  | .opInvoicePayment _ a _ => 0 ≤ a
  | .opPurchasePayment _ a _ => 0 ≤ a
  | _ => True

/-- Recognizer of the administrative movement delete request. -/
def isDeleteOp : Op → Bool
  | .opDeleteMovement _ => true
  | _ => false

/-- The payment/balance/status document invariant of an invoice: balance is
the roundedAmount minus amountPaid formula, amountPaid stays within
[0, roundedAmount] (or is still 0 when the document cannot accept payments),
roundedAmount agrees with the totals hook on the items, and status obeys the
thresholds. -/
def InvDocInv (inv : Invoice) : Prop :=
  inv.balance = inv.roundedAmount - inv.amountPaid ∧
  0 ≤ inv.amountPaid ∧
  (inv.amountPaid ≤ inv.roundedAmount ∨ inv.amountPaid = 0) ∧
  (inv.items ≠ [] → inv.roundedAmount = invRounded inv.items) ∧
  (inv.items = [] → inv.roundedAmount = 0 ∧ inv.amountPaid = 0 ∧ inv.balance = 0) ∧
  (inv.amountPaid ≥ inv.roundedAmount ∧ inv.roundedAmount > 0 → inv.status = .paid) ∧
  (0 < inv.amountPaid ∧ inv.amountPaid < inv.roundedAmount → inv.status = .partly)

/-- The same document invariant for a purchase. -/
def PurDocInv (pur : Purchase) : Prop :=
  pur.balance = pur.roundedAmount - pur.amountPaid ∧
  0 ≤ pur.amountPaid ∧
  (pur.amountPaid ≤ pur.roundedAmount ∨ pur.amountPaid = 0) ∧
  (pur.items ≠ [] → pur.roundedAmount = purRounded pur.items) ∧
  (pur.items = [] → pur.roundedAmount = 0 ∧ pur.amountPaid = 0 ∧ pur.balance = 0) ∧
  (pur.amountPaid ≥ pur.roundedAmount ∧ pur.roundedAmount > 0 → pur.status = .paid) ∧
  (0 < pur.amountPaid ∧ pur.amountPaid < pur.roundedAmount → pur.status = .partly)

/-! ## Concrete fixtures used by the counterexamples and witnesses -/

/-- An empty draft purchase placeholder. -/
def emptyPur : Purchase :=
  { supplier := 2, status := .draft, items := [] }

/-- An empty draft invoice placeholder. -/
def emptyInv : Invoice :=
  { client := 7, status := .draft, items := [] }

/-- Item: 5 units of product 1 at price 20 (line total 100). -/
def itm1 : InvoiceItem :=
  { product := 1, quantity := 5, unitPrice := 20, discount := 0,
    taxCode := .tA, taxRate := 0, taxAmount := 0, subtotal := 100, totalWithTax := 100 }

/-- Item: 5 units of product 2 at price 8 (line total 40). -/
def itm2 : InvoiceItem :=
  { product := 2, quantity := 5, unitPrice := 8, discount := 0,
    taxCode := .tA, taxRate := 0, taxAmount := 0, subtotal := 40, totalWithTax := 40 }

/-- Over-discounted item: 1 unit at price 10 with discount 50. -/
def itmNeg : InvoiceItem :=
  { product := 1, quantity := 1, unitPrice := 10, discount := 50,
    taxCode := .tA, taxRate := 0, taxAmount := 0, subtotal := 10, totalWithTax := 10 }

/-- Item: 1 unit of product 1 at price 100. -/
def itm100 : InvoiceItem :=
  { product := 1, quantity := 1, unitPrice := 100, discount := 0,
    taxCode := .tA, taxRate := 0, taxAmount := 0, subtotal := 100, totalWithTax := 100 }

/-- Purchase item: 10 units of product 1 at cost 6. -/
def pitm7 : PurchaseItem :=
  { product := 1, quantity := 10, unitCost := 6, discount := 0,
    taxCode := .tA, taxRate := 0, taxAmount := 0, subtotal := 60, totalWithTax := 60 }

/-- Purchase item: 4 units of product 1 at cost 25. -/
def pitm1 : PurchaseItem :=
  { product := 1, quantity := 4, unitCost := 25, discount := 0,
    taxCode := .tA, taxRate := 0, taxAmount := 0, subtotal := 100, totalWithTax := 100 }

/-- One product with stock 10 at average cost 5. -/
def prodMap1 : ProductMap := [(1, { currentStock := 10, averageCost := 5 })]

/-- Two products; the second has only 3 units. -/
def prodMap12 : ProductMap :=
  [(1, { currentStock := 10, averageCost := 5 }), (2, { currentStock := 3, averageCost := 2 })]

/-- One product with only 3 units. -/
def prodMapLow : ProductMap := [(1, { currentStock := 3, averageCost := 2 })]

/-- One product with zero stock. -/
def prodMap0 : ProductMap := [(1, { currentStock := 0, averageCost := 0 })]

/-- Saved one-item draft invoice over itm1 (roundedAmount 100). -/
def invDoc1 : Invoice :=
  invoiceSaveHook { client := 7, status := .draft, items := [itm1] }

/-- Saved two-item draft invoice over itm1 and itm2 (roundedAmount 140). -/
def invDoc12 : Invoice :=
  invoiceSaveHook { client := 7, status := .draft, items := [itm1, itm2] }

/-- Saved one-item draft invoice over itm100 (roundedAmount 100). -/
def invDoc100 : Invoice :=
  invoiceSaveHook { client := 7, status := .draft, items := [itm100] }

/-- C1 store: the first item of the invoice is coverable, the second is not. -/
def c1St : St :=
  { products := prodMap12, movements := [], invoice := invDoc12,
    client := some { outstandingBalance := 0, totalPurchases := 0 },
    purchase := emptyPur }

/-- C4/C2 store: one-item draft invoice with ample stock. -/
def c4St : St :=
  { products := prodMap1, movements := [], invoice := invDoc1,
    client := some { outstandingBalance := 30, totalPurchases := 0 },
    purchase := createPurchase 2 [pitm1] }

/-- C5 store: draft invoice over itm100. -/
def c5St0 : St :=
  { products := prodMap1, movements := [], invoice := invDoc100,
    client := some { outstandingBalance := 0, totalPurchases := 0 },
    purchase := emptyPur }

/-- C5 partially-paid confirmed state: confirm, then pay 40 of 100. -/
def c5StPartial : St :=
  run c5St0 [.opConfirmInvoice 9, .opInvoicePayment 9 40 .cash]

/-- C5 second store: draft invoice over itm100, client owes 250. -/
def c5St1 : St :=
  { products := prodMap1, movements := [], invoice := invDoc100,
    client := some { outstandingBalance := 250, totalPurchases := 0 },
    purchase := emptyPur }

/-- C5 cancelled-unpaid state: cancel the unpaid draft. -/
def c5StCancelled : St :=
  run c5St1 [.opCancelInvoice 9 "duplicate"]

/-- C6 store: draft invoice needing 5 units of a product holding 3. -/
def c6St : St :=
  { products := prodMapLow, movements := [], invoice := invDoc1,
    client := some { outstandingBalance := 0, totalPurchases := 0 },
    purchase := emptyPur }

/-- C7 store: empty product, one-item purchase of 10 units at cost 6. -/
def c7St0 : St :=
  { products := prodMap0, movements := [], invoice := emptyInv, client := none,
    purchase := createPurchase 2 [pitm7] }

/-- C7 trace: receive the purchase, adjust 8 units out, cancel the purchase. -/
def c7Ops : List Op :=
  [.opReceivePurchase 9, .opAdjustStock 9 1 8 .adjOut .damage, .opCancelPurchase 9 "r"]

/-- C8 quotation: approved, one item, not yet converted. -/
def q8 : Quotation :=
  { client := 7, status := .approved,
    items := [{ product := 1, quantity := 2, unitPrice := 50, discount := 0,
                taxRate := 0, subtotal := 100, total := 100 }] }

/-- C10 movement fixture. -/
def m10 : Mv :=
  { product := 1, type := .tIn, reason := .purchase, quantity := 4,
    previousStock := 6, newStock := 10, unitCost := some 5, performedBy := 3 }

/-- C10 patch fixture: new notes and unit cost. -/
def b10 : MvPatch :=
  { notes := some "fixed", unitCost := some 9 }

/-- C10 store fixture. -/
def c10St : St :=
  { products := prodMap1, movements := [m10], invoice := emptyInv, client := none,
    purchase := emptyPur }

/-! ## Repository lemmas -/

theorem getProduct_setProduct_self (ps : ProductMap) (pid : Nat) (p : Product) :
    getProduct (setProduct ps pid p) pid = (getProduct ps pid).map (fun _ => p) := by
  induction ps with
  | nil => simp [getProduct, setProduct]
  | cons e rest ih =>
    by_cases h : e.1 = pid
    · simp [getProduct, setProduct, h]
    · simp [getProduct, setProduct, h, ih]

theorem getProduct_setProduct_ne (ps : ProductMap) (pid pid' : Nat) (p : Product)
    (h : pid' ≠ pid) :
    getProduct (setProduct ps pid p) pid' = getProduct ps pid' := by
  induction ps with
  | nil => rfl
  | cons e rest ih =>
    by_cases he : e.1 = pid
    · have h1 : ¬ (pid = pid') := fun hc => h hc.symm
      have h2 : ¬ (e.1 = pid') := by rw [he]; exact h1
      rw [setProduct, if_pos he, getProduct, getProduct, if_neg h1, if_neg h2, ih]
    · by_cases he' : e.1 = pid'
      · rw [setProduct, if_neg he, getProduct, getProduct, if_pos he', if_pos he']
      · rw [setProduct, if_neg he, getProduct, getProduct, if_neg he', if_neg he', ih]

theorem getProduct_setProduct_isSome (ps : ProductMap) (pid pid' : Nat) (p : Product) :
    (getProduct (setProduct ps pid p) pid').isSome = (getProduct ps pid').isSome := by
  by_cases h : pid' = pid
  · subst h; rw [getProduct_setProduct_self]; cases getProduct ps pid' <;> simp
  · rw [getProduct_setProduct_ne ps pid pid' p h]

/-! ## C3: the three average-cost rules -/

/-- C3 counterexample: the claim asserts the weighted blend
(s0 c0 + q c) / (s0 + q) on every inbound path once s0 is positive, and the
new unit cost c whenever the prior average was zero.  The auto-receive path
of the purchase payment handler leaves a nonzero average cost unchanged
(prior stock 10 at cost 5, receiving 10 at cost 7 keeps 5, not the blend 6),
and receiveStock blends even from a zero prior average (prior stock 10 at
cost 0, receiving 10 at cost 6 yields 3, not 6). -/
theorem c3_counterexample :
    (autoReceiveCost { currentStock := 10, averageCost := 5 } 10 7).averageCost = 5 ∧
    ((10 : ℚ) * 5 + 10 * 7) / (10 + 10) = 6 ∧ (5 : ℚ) ≠ 6 ∧
    (receiveStockCost { currentStock := 10, averageCost := 0 } 10 6).averageCost = 3 ∧
    (3 : ℚ) ≠ 6 := by
  refine ⟨?_, by norm_num, by norm_num, ?_, by norm_num⟩ <;>
    norm_num [autoReceiveCost, receiveStockCost]

/-- C3 (amended): for an inbound movement of quantity q at unit cost c on a
product with prior stock s0 and prior average c0, receivePurchase follows the
claimed rule exactly: the result is c when s0 = 0 or c0 = 0, and the blend
(s0 c0 + q c) / (s0 + q) otherwise.  receiveStock always applies the blend,
which equals c only when s0 = 0; and the auto-receive path of the purchase
payment handler sets the average to c when c0 = 0 and otherwise leaves it
unchanged, never blending. -/
theorem c3_amended (p : Product) (q c : ℚ) (hq : 0 < q) :
    (receivePurchaseCost p q c).averageCost =
      (if p.currentStock = 0 ∨ p.averageCost = 0 then c
       else (p.currentStock * p.averageCost + q * c) / (p.currentStock + q)) ∧
    (receiveStockCost p q c).averageCost =
      (p.currentStock * p.averageCost + q * c) / (p.currentStock + q) ∧
    (p.currentStock = 0 → (receiveStockCost p q c).averageCost = c) ∧
    (autoReceiveCost p q c).averageCost =
      (if p.averageCost = 0 then c else p.averageCost) := by
  have hq0 : q ≠ 0 := ne_of_gt hq
  refine ⟨?_, ?_, ?_, rfl⟩
  · by_cases hc0 : p.averageCost = 0
    · simp [receivePurchaseCost, hc0]
    · by_cases hs0 : p.currentStock = 0
      · simp [receivePurchaseCost, hc0, hs0]
        field_simp
      · simp [receivePurchaseCost, hc0, hs0]
        ring_nf
  · rfl
  · intro hs0
    simp [receiveStockCost, hs0]
    field_simp

/-- C3 witness: instantiates the amended rule at prior stock 10, prior
average 5, quantity 10, cost 7: receivePurchase blends to 6 while the
auto-receive path keeps 5. -/
theorem c3_witness :
    (0 : ℚ) < 10 ∧
    (receivePurchaseCost { currentStock := 10, averageCost := 5 } 10 7).averageCost = 6 ∧
    (autoReceiveCost { currentStock := 10, averageCost := 5 } 10 7).averageCost = 5 := by
  have h := c3_amended { currentStock := 10, averageCost := 5 } 10 7 (by norm_num)
  refine ⟨by norm_num, ?_, ?_⟩
  · rw [h.1]; norm_num
  · rw [h.2.2.2]; norm_num

/-! ## C9: supplier stats on receivePurchase -/

theorem sGet_sSetKey_ne (d : SupplierDoc) (k k' : String) (v : ℚ) (h : k' ≠ k) :
    sGet (sSetKey d k v) k' = sGet d k' := by
  induction d with
  | nil =>
    have h1 : ¬ (k = k') := fun hc => h hc.symm
    simp [sSetKey, sGet, h1]
  | cons e rest ih =>
    by_cases he : e.1 = k
    · have h1 : ¬ (k = k') := fun hc => h hc.symm
      have h2 : ¬ (e.1 = k') := by rw [he]; exact h1
      rw [sSetKey, if_pos he, sGet, sGet, if_neg h1, if_neg h2]
    · by_cases he' : e.1 = k'
      · simp [sSetKey, sGet, he, he', h]
      · simp [sSetKey, sGet, he, he', ih]

theorem sSet_outstanding_dropped (d : SupplierDoc) (v : ℚ) :
    sSet d "outstandingBalance" v = d := by
  simp +decide [sSet, supplierNumericPaths]

/-- C9: the claim says receiving a purchase increases both the supplier
totalPurchases and the persisted supplier outstandingBalance by the
roundedAmount.  The supplier schema declares no outstandingBalance path, so
the outstandingBalance write is dropped by strict-mode persistence: on a
supplier document holding totalPurchases 0, receiving a purchase of
roundedAmount 100 persists totalPurchases 100 and no outstandingBalance at
all, and in general the persisted outstandingBalance reading is never
changed. -/
theorem c9_code_bug :
    receivePurchaseSupplierUpdate [("totalPurchases", 0)] 100 = [("totalPurchases", 100)] ∧
    sGet (receivePurchaseSupplierUpdate [("totalPurchases", 0)] 100) "outstandingBalance" =
      none ∧
    (∀ d rounded, sGet (receivePurchaseSupplierUpdate d rounded) "outstandingBalance" =
      sGet d "outstandingBalance") := by
  have hgen : ∀ d rounded,
      sGet (receivePurchaseSupplierUpdate d rounded) "outstandingBalance" =
        sGet d "outstandingBalance" := by
    intro d rounded
    simp only [receivePurchaseSupplierUpdate, sSet_outstanding_dropped]
    have hc : supplierNumericPaths.contains "totalPurchases" = true := by decide
    simp only [sSet, hc, if_true]
    exact sGet_sSetKey_ne _ _ _ _ (by decide)
  refine ⟨?_, ?_, hgen⟩
  · simp only [receivePurchaseSupplierUpdate, sSet_outstanding_dropped]
    norm_num +decide [sSet, sSetKey, sGet, supplierNumericPaths]
  · rw [hgen]
    norm_num +decide [sGet]

/-! ## C10: updateStockMovement frame -/

/-- C10: updateStockMovement only patches the ten allow-listed metadata
fields of the targeted movement: its quantity, previousStock, newStock,
type, reason, product and performedBy are unchanged, every other movement is
untouched, and no product (hence no currentStock or averageCost), invoice,
client or purchase changes. -/
theorem c10_frame (st : St) (idx : Nat) (b : MvPatch) (m : Mv)
    (h : st.movements[idx]? = some m) :
    (updateStockMovement st idx b).2 = none ∧
    (updateStockMovement st idx b).1.products = st.products ∧
    (updateStockMovement st idx b).1.invoice = st.invoice ∧
    (updateStockMovement st idx b).1.client = st.client ∧
    (updateStockMovement st idx b).1.purchase = st.purchase ∧
    (updateStockMovement st idx b).1.movements = st.movements.set idx (applyMvPatch m b) ∧
    (applyMvPatch m b).quantity = m.quantity ∧
    (applyMvPatch m b).previousStock = m.previousStock ∧
    (applyMvPatch m b).newStock = m.newStock ∧
    (applyMvPatch m b).type = m.type ∧
    (applyMvPatch m b).reason = m.reason ∧
    (applyMvPatch m b).product = m.product ∧
    (applyMvPatch m b).performedBy = m.performedBy := by
  simp [updateStockMovement, h, applyMvPatch]

/-- C10 witness: the frame theorem applied to the concrete movement m10 with
the concrete patch b10 at index 0. -/
theorem c10_witness :
    c10St.movements[0]? = some m10 ∧
    (updateStockMovement c10St 0 b10).1.products = c10St.products ∧
    (applyMvPatch m10 b10).quantity = m10.quantity ∧
    (applyMvPatch m10 b10).newStock = m10.newStock := by
  have h : c10St.movements[0]? = some m10 := rfl
  have hf := c10_frame c10St 0 b10 m10 h
  exact ⟨h, hf.2.1, hf.2.2.2.2.2.2.1, hf.2.2.2.2.2.2.2.2.1⟩

/-! ## C8: quotation conversion -/

/-- C8: the claim says convertToInvoice on an approved, unconverted
quotation succeeds, creating a draft invoice that copies the items.  In the
source the quotation items carry no totalWithTax path while
invoiceItemSchema requires one with no default, and mongoose validates
before the user pre-save totals hook runs, so Invoice.create throws a
validation error for every quotation with at least one item and nothing is
persisted: on the concrete approved one-item quotation q8 the call reports
the validation error, and the claimed AlreadyConverted guard does fire on an
already-converted quotation. -/
theorem c8_code_bug :
    convertToInvoice q8 3 4 = .error .validationError ∧
    convertToInvoice { q8 with convertedToInvoice := some 9 } 3 4 =
      .error .alreadyConverted := by
  constructor <;>
    norm_num [convertToInvoice, q8, invoiceCreateFromCast, castQuotationItem, validCastItem]

/-- Supporting fact for C8: conversion can never succeed on a quotation with
at least one item, whatever its status or conversion state. -/
theorem convertToInvoice_never_ok (q : Quotation) (hq : q.items ≠ []) (qid newInvId : Nat)
    (r : Quotation × Invoice) :
    convertToInvoice q qid newInvId ≠ .ok r := by
  unfold convertToInvoice
  by_cases h1 : q.status = QStatus.approved
  · by_cases h2 : q.convertedToInvoice.isSome
    · simp [h1, h2]
    · cases hitems : q.items with
      | nil => exact absurd hitems hq
      | cons it rest =>
        simp [h1, h2, invoiceCreateFromCast, hitems, castQuotationItem, validCastItem]
  · simp [h1]

/-! ## C1: failed operations and prior state -/

/-- C1 counterexample: the claim says a confirmInvoice rejected for
insufficient stock has recorded no stock movement and changed no product.
On the two-item invoice of c1St the second item is short (3 of 5 units), the
handler rejects, yet the movement for the first item is already in the
ledger and product 1 has already lost its 5 units. -/
theorem c1_counterexample :
    (confirmInvoice c1St 9).2 = some Err.insufficientStock ∧
    (confirmInvoice c1St 9).1.movements ≠ [] ∧
    getProduct (confirmInvoice c1St 9).1.products 1 ≠ getProduct c1St.products 1 := by
  norm_num +decide [c1St, invDoc12, itm1, itm2, prodMap12, confirmInvoice, confirmLoop,
    getProduct, setProduct, invoiceSaveHook, invoiceApplyStatus, invoiceRecomputeTotals, invRounded, invGrand, invSubtotal,
    invTotalDiscount, invTotalTaxA, invTotalTaxB, invTotalAEx, invTotalB18,
    hookItem, itemNet, jsRound2]

/-- C1 (amended): a payment rejected for exceeding the balance leaves the
entire store unchanged, for invoices and purchases alike; a rejected
confirmInvoice never touches the invoice document or the client, and when
the very first line item is uncoverable the whole store is unchanged.
Movements and stock decrements recorded for items preceding the first
failing one persist, however (the counterexample), because the source
re-validates inside the mutation loop without any transaction. -/
theorem c1_amended :
    (∀ st uid a m, (recordInvoicePayment st uid a m).2 = some Err.paymentExceedsBalance →
      (recordInvoicePayment st uid a m).1 = st) ∧
    (∀ st uid a m, (recordPurchasePayment st uid a m).2 = some Err.paymentExceedsBalance →
      (recordPurchasePayment st uid a m).1 = st) ∧
    (∀ st uid, (confirmInvoice st uid).2 ≠ none →
      (confirmInvoice st uid).1.invoice = st.invoice ∧
      (confirmInvoice st uid).1.client = st.client) ∧
    (∀ st uid it rest, st.invoice.items = it :: rest →
      (∀ p, getProduct st.products it.product = some p → p.currentStock < it.quantity) →
      (confirmInvoice st uid).1 = st) := by
  refine ⟨?_, ?_, ?_, ?_⟩
  · intro st uid a m h
    unfold recordInvoicePayment at h ⊢
    by_cases h1 : st.invoice.status = InvStatus.cancelled
    · simp [h1]
    · by_cases h2 : a > st.invoice.balance
      · simp [h1, h2]
      · simp [h1, h2] at h
  · intro st uid a m h
    unfold recordPurchasePayment at h ⊢
    by_cases h1 : st.purchase.status = PurStatus.cancelled
    · simp [h1]
    · by_cases h2 : a > st.purchase.balance
      · simp [h1, h2]
      · simp [h1, h2] at h
  · intro st uid h
    unfold confirmInvoice at h ⊢
    by_cases h1 : st.invoice.status ≠ InvStatus.draft
    · simp [h1]
    · simp only [h1, if_false, ite_false] at h ⊢
      rcases hE : confirmLoop uid st.invoice.items st.products st.movements with ⟨ps, ms, e⟩
      cases e with
      | none => rw [hE] at h; simp at h
      | some err => simp
  · intro st uid it rest hitems hins
    unfold confirmInvoice
    by_cases h1 : st.invoice.status ≠ InvStatus.draft
    · simp [h1]
    · have hloop : confirmLoop uid st.invoice.items st.products st.movements =
          (st.products, st.movements, some Err.productNotFound) ∨
          confirmLoop uid st.invoice.items st.products st.movements =
          (st.products, st.movements, some Err.insufficientStock) := by
        rw [hitems]
        cases hg : getProduct st.products it.product with
        | none => left; simp [confirmLoop, hg]
        | some p =>
          right
          have := hins p hg
          simp [confirmLoop, hg, this]
      simp only [h1, if_false, ite_false]
      rcases hloop with hl | hl <;> rw [hl]

/-- C1 witness: a payment of 1000 against a balance of 100 is rejected and
the store c4St is bit-for-bit unchanged; confirming the invoice of c6St,
whose single (hence first) item is short, changes nothing either. -/
theorem c1_witness :
    (recordInvoicePayment c4St 9 1000 PayMethod.cash).2 = some Err.paymentExceedsBalance ∧
    (recordInvoicePayment c4St 9 1000 PayMethod.cash).1 = c4St ∧
    (confirmInvoice c6St 9).1 = c6St := by
  have hpay : (recordInvoicePayment c4St 9 1000 PayMethod.cash).2 =
      some Err.paymentExceedsBalance := by
    norm_num +decide [c4St, invDoc1, itm1, prodMap1, recordInvoicePayment,
      invoiceSaveHook, invoiceApplyStatus, invoiceRecomputeTotals, invRounded, invGrand, invSubtotal,
      invTotalDiscount, invTotalTaxA, invTotalTaxB, invTotalAEx, invTotalB18,
      hookItem, itemNet, jsRound2]
  have hitems : c6St.invoice.items = itm1 :: [] := by
    norm_num +decide [c6St, invDoc1, itm1, invoiceSaveHook, invoiceApplyStatus, invoiceRecomputeTotals, invRounded, invGrand,
      invSubtotal, invTotalDiscount, invTotalTaxA, invTotalTaxB, invTotalAEx, invTotalB18,
      hookItem, itemNet, jsRound2]
  refine ⟨hpay, c1_amended.1 c4St 9 1000 PayMethod.cash hpay, ?_⟩
  refine c1_amended.2.2.2 c6St 9 itm1 [] hitems ?_
  intro p hp
  have : p = { currentStock := 3, averageCost := 2 } := by
    have h3 : getProduct c6St.products itm1.product =
        some { currentStock := 3, averageCost := 2 } := by
      norm_num +decide [c6St, prodMapLow, itm1, getProduct]
    rw [h3] at hp
    exact (Option.some_inj.mp hp).symm
  rw [this]
  norm_num [itm1]

/-! ## C5: cancellation is not terminal -/

/-- C5: the claim says a successful cancel persists status cancelled and no
further transition can succeed.  On the reachable store c5StPartial (a
confirmed invoice of 100 with 40 paid), cancelInvoice succeeds but the
pre-save status hook overrides the assigned cancelled status back to
partial, and a further payment on the supposedly cancelled invoice then
succeeds.  On the reachable store c5StCancelled (a cancelled unpaid
invoice), a second cancelInvoice also succeeds — the handler rejects only
status paid — and adjusts the client balance a second time. -/
theorem c5_code_bug :
    c5StPartial.invoice.status = InvStatus.partly ∧
    (cancelInvoice c5StPartial 9 "bad").2 = none ∧
    (cancelInvoice c5StPartial 9 "bad").1.invoice.status = InvStatus.partly ∧
    (cancelInvoice c5StPartial 9 "bad").1.invoice.status ≠ InvStatus.cancelled ∧
    (recordInvoicePayment (cancelInvoice c5StPartial 9 "bad").1 9 10 PayMethod.cash).2 =
      none ∧
    c5StCancelled.invoice.status = InvStatus.cancelled ∧
    (cancelInvoice c5StCancelled 9 "again").2 = none ∧
    (cancelInvoice c5StCancelled 9 "again").1.client ≠ c5StCancelled.client := by
  norm_num +decide [c5StPartial, c5StCancelled, c5St0, c5St1, invDoc100, itm100, prodMap1,
    emptyPur, run, step, confirmInvoice, confirmLoop, recordInvoicePayment, autoDeductLoop,
    cancelInvoice, cancelInvLoop, getProduct, setProduct,
    invoiceSaveHook, invoiceApplyStatus, invoiceRecomputeTotals, invRounded, invGrand, invSubtotal,
    invTotalDiscount, invTotalTaxA, invTotalTaxB, invTotalAEx, invTotalB18,
    hookItem, itemNet, jsRound2]

/-! ## C6: payment-triggered stock side effect -/

/-- C6 counterexample: the claim says the first payment triggers exactly the
confirm side effect with the same insufficient-stock behavior.  On c6St
(draft invoice needing 5 units of a product holding 3) confirmInvoice
rejects, but a payment of 40 succeeds, records no movement at all, leaves
the product untouched and still marks stockDeducted true. -/
theorem c6_counterexample :
    (recordInvoicePayment c6St 9 40 PayMethod.cash).2 = none ∧
    (recordInvoicePayment c6St 9 40 PayMethod.cash).1.movements = [] ∧
    (recordInvoicePayment c6St 9 40 PayMethod.cash).1.invoice.stockDeducted = true ∧
    getProduct (recordInvoicePayment c6St 9 40 PayMethod.cash).1.products 1 =
      getProduct c6St.products 1 ∧
    (confirmInvoice c6St 9).2 = some Err.insufficientStock := by
  norm_num +decide [c6St, invDoc1, itm1, prodMapLow, recordInvoicePayment, autoDeductLoop,
    confirmInvoice, confirmLoop, getProduct, setProduct,
    invoiceSaveHook, invoiceApplyStatus, invoiceRecomputeTotals, invRounded, invGrand, invSubtotal,
    invTotalDiscount, invTotalTaxA, invTotalTaxB, invTotalAEx, invTotalB18,
    hookItem, itemNet, jsRound2]

theorem autoDeduct_agrees_confirm (uid : Nat) :
    ∀ (items : List InvoiceItem) (ps : ProductMap) (msC msA : List Mv)
      (ps' : ProductMap) (msC' : List Mv),
      msA.map Mv.core = msC.map Mv.core →
      confirmLoop uid items ps msC = (ps', msC', none) →
      (autoDeductLoop uid items ps msA).1 = ps' ∧
      (autoDeductLoop uid items ps msA).2.map Mv.core = msC'.map Mv.core := by
  intro items
  induction items with
  | nil =>
    intro ps msC msA ps' msC' hcore hC
    simp only [confirmLoop, Prod.mk.injEq] at hC
    obtain ⟨h1, h2, _⟩ := hC
    subst h1; subst h2
    exact ⟨rfl, hcore⟩
  | cons it rest ih =>
    intro ps msC msA ps' msC' hcore hC
    cases hg : getProduct ps it.product with
    | none => rw [confirmLoop, hg] at hC; simp at hC
    | some p =>
      by_cases hlt : p.currentStock < it.quantity
      · rw [confirmLoop, hg] at hC
        simp only [hlt, if_true, ite_true, Prod.mk.injEq] at hC
        exact absurd hC.2.2 (by simp)
      · rw [confirmLoop, hg] at hC
        simp only [hlt, if_false, ite_false] at hC
        have hge : p.currentStock ≥ it.quantity := not_lt.mp hlt
        rw [autoDeductLoop, hg]
        simp only [hge, if_true, ite_true]
        exact ih _ _ _ _ _ (by simp [hcore, Mv.core]) hC

theorem invoiceApplyStatus_amountPaid (inv : Invoice) :
    (invoiceApplyStatus inv).amountPaid = inv.amountPaid := by
  unfold invoiceApplyStatus; split_ifs <;> simp

theorem invoiceApplyStatus_roundedAmount (inv : Invoice) :
    (invoiceApplyStatus inv).roundedAmount = inv.roundedAmount := by
  unfold invoiceApplyStatus; split_ifs <;> simp

theorem invoiceApplyStatus_balance (inv : Invoice) :
    (invoiceApplyStatus inv).balance = inv.balance := by
  unfold invoiceApplyStatus; split_ifs <;> simp

theorem invoiceApplyStatus_items (inv : Invoice) :
    (invoiceApplyStatus inv).items = inv.items := by
  unfold invoiceApplyStatus; split_ifs <;> simp

theorem invoiceApplyStatus_stockDeducted (inv : Invoice) :
    (invoiceApplyStatus inv).stockDeducted = inv.stockDeducted := by
  unfold invoiceApplyStatus; split_ifs <;> simp

theorem invoiceApplyStatus_status_unpaid (inv : Invoice) (h : inv.amountPaid = 0) :
    (invoiceApplyStatus inv).status = inv.status := by
  unfold invoiceApplyStatus
  split_ifs with h1 h2
  · exact absurd h1.2 (not_lt.mpr (h ▸ h1.1))
  · rw [h] at h2; exact absurd h2.1 (lt_irrefl 0)
  · rfl

theorem invoiceRecomputeTotals_amountPaid (inv : Invoice) :
    (invoiceRecomputeTotals inv).amountPaid = inv.amountPaid := by
  unfold invoiceRecomputeTotals; split_ifs <;> simp

theorem invoiceRecomputeTotals_stockDeducted (inv : Invoice) :
    (invoiceRecomputeTotals inv).stockDeducted = inv.stockDeducted := by
  unfold invoiceRecomputeTotals; split_ifs <;> simp

theorem invoiceRecomputeTotals_status (inv : Invoice) :
    (invoiceRecomputeTotals inv).status = inv.status := by
  unfold invoiceRecomputeTotals; split_ifs <;> simp

theorem invoiceRecomputeTotals_items (inv : Invoice) :
    (invoiceRecomputeTotals inv).items = inv.items.map hookItem := by
  unfold invoiceRecomputeTotals; split_ifs with h <;> simp [h]

theorem invoiceRecomputeTotals_roundedAmount (inv : Invoice) :
    (invoiceRecomputeTotals inv).roundedAmount =
      (if inv.items = [] then inv.roundedAmount else invRounded inv.items) := by
  unfold invoiceRecomputeTotals; split_ifs with h <;> simp [h]

theorem invoiceRecomputeTotals_balance (inv : Invoice) :
    (invoiceRecomputeTotals inv).balance =
      (if inv.items = [] then inv.balance else invRounded inv.items - inv.amountPaid) := by
  unfold invoiceRecomputeTotals; split_ifs with h <;> simp [h]

theorem invoiceSaveHook_stockDeducted (inv : Invoice) :
    (invoiceSaveHook inv).stockDeducted = inv.stockDeducted := by
  rw [invoiceSaveHook, invoiceApplyStatus_stockDeducted, invoiceRecomputeTotals_stockDeducted]

theorem invoiceSaveHook_amountPaid (inv : Invoice) :
    (invoiceSaveHook inv).amountPaid = inv.amountPaid := by
  rw [invoiceSaveHook, invoiceApplyStatus_amountPaid, invoiceRecomputeTotals_amountPaid]

theorem invoiceSaveHook_items (inv : Invoice) :
    (invoiceSaveHook inv).items = inv.items.map hookItem := by
  rw [invoiceSaveHook, invoiceApplyStatus_items, invoiceRecomputeTotals_items]

theorem invoiceSaveHook_roundedAmount (inv : Invoice) :
    (invoiceSaveHook inv).roundedAmount =
      (if inv.items = [] then inv.roundedAmount else invRounded inv.items) := by
  rw [invoiceSaveHook, invoiceApplyStatus_roundedAmount, invoiceRecomputeTotals_roundedAmount]

theorem invoiceSaveHook_balance (inv : Invoice) :
    (invoiceSaveHook inv).balance =
      (if inv.items = [] then inv.balance else invRounded inv.items - inv.amountPaid) := by
  rw [invoiceSaveHook, invoiceApplyStatus_balance, invoiceRecomputeTotals_balance]

theorem invoiceSaveHook_status_unpaid (inv : Invoice) (h : inv.amountPaid = 0) :
    (invoiceSaveHook inv).status = inv.status := by
  rw [invoiceSaveHook, invoiceApplyStatus_status_unpaid _
    (by rw [invoiceRecomputeTotals_amountPaid]; exact h), invoiceRecomputeTotals_status]

theorem purchaseApplyStatus_amountPaid (pur : Purchase) :
    (purchaseApplyStatus pur).amountPaid = pur.amountPaid := by
  unfold purchaseApplyStatus; split_ifs <;> simp

theorem purchaseApplyStatus_roundedAmount (pur : Purchase) :
    (purchaseApplyStatus pur).roundedAmount = pur.roundedAmount := by
  unfold purchaseApplyStatus; split_ifs <;> simp

theorem purchaseApplyStatus_balance (pur : Purchase) :
    (purchaseApplyStatus pur).balance = pur.balance := by
  unfold purchaseApplyStatus; split_ifs <;> simp

theorem purchaseApplyStatus_items (pur : Purchase) :
    (purchaseApplyStatus pur).items = pur.items := by
  unfold purchaseApplyStatus; split_ifs <;> simp

theorem purchaseApplyStatus_stockAdded (pur : Purchase) :
    (purchaseApplyStatus pur).stockAdded = pur.stockAdded := by
  unfold purchaseApplyStatus; split_ifs <;> simp

theorem purchaseRecomputeTotals_amountPaid (pur : Purchase) :
    (purchaseRecomputeTotals pur).amountPaid = pur.amountPaid := by
  unfold purchaseRecomputeTotals; split_ifs <;> simp

theorem purchaseRecomputeTotals_stockAdded (pur : Purchase) :
    (purchaseRecomputeTotals pur).stockAdded = pur.stockAdded := by
  unfold purchaseRecomputeTotals; split_ifs <;> simp

theorem purchaseRecomputeTotals_status (pur : Purchase) :
    (purchaseRecomputeTotals pur).status = pur.status := by
  unfold purchaseRecomputeTotals; split_ifs <;> simp

theorem purchaseRecomputeTotals_items (pur : Purchase) :
    (purchaseRecomputeTotals pur).items = pur.items.map purHookItem := by
  unfold purchaseRecomputeTotals; split_ifs with h <;> simp [h]

theorem purchaseRecomputeTotals_roundedAmount (pur : Purchase) :
    (purchaseRecomputeTotals pur).roundedAmount =
      (if pur.items = [] then pur.roundedAmount else purRounded pur.items) := by
  unfold purchaseRecomputeTotals; split_ifs with h <;> simp [h]

theorem purchaseRecomputeTotals_balance (pur : Purchase) :
    (purchaseRecomputeTotals pur).balance =
      (if pur.items = [] then pur.balance else purRounded pur.items - pur.amountPaid) := by
  unfold purchaseRecomputeTotals; split_ifs with h <;> simp [h]

theorem purchaseSaveHook_stockAdded (pur : Purchase) :
    (purchaseSaveHook pur).stockAdded = pur.stockAdded := by
  rw [purchaseSaveHook, purchaseApplyStatus_stockAdded, purchaseRecomputeTotals_stockAdded]

theorem purchaseSaveHook_amountPaid (pur : Purchase) :
    (purchaseSaveHook pur).amountPaid = pur.amountPaid := by
  rw [purchaseSaveHook, purchaseApplyStatus_amountPaid, purchaseRecomputeTotals_amountPaid]

theorem purchaseSaveHook_items (pur : Purchase) :
    (purchaseSaveHook pur).items = pur.items.map purHookItem := by
  rw [purchaseSaveHook, purchaseApplyStatus_items, purchaseRecomputeTotals_items]

theorem purchaseSaveHook_roundedAmount (pur : Purchase) :
    (purchaseSaveHook pur).roundedAmount =
      (if pur.items = [] then pur.roundedAmount else purRounded pur.items) := by
  rw [purchaseSaveHook, purchaseApplyStatus_roundedAmount, purchaseRecomputeTotals_roundedAmount]

theorem purchaseSaveHook_balance (pur : Purchase) :
    (purchaseSaveHook pur).balance =
      (if pur.items = [] then pur.balance else purRounded pur.items - pur.amountPaid) := by
  rw [purchaseSaveHook, purchaseApplyStatus_balance, purchaseRecomputeTotals_balance]

theorem autoReceive_agrees_receive (uid sid : Nat) :
    ∀ (items : List PurchaseItem) (psA psR : ProductMap) (msA msR : List Mv)
      (psA' : ProductMap) (msA' : List Mv) (psR' : ProductMap) (msR' : List Mv),
      autoReceiveLoop uid sid items psA msA = (psA', msA') →
      receiveLoop uid sid items psR msR = (psR', msR') →
      (∀ pid, (getProduct psA pid).map Product.currentStock =
        (getProduct psR pid).map Product.currentStock) →
      msA.map Mv.core = msR.map Mv.core →
      (∀ pid, (getProduct psA' pid).map Product.currentStock =
        (getProduct psR' pid).map Product.currentStock) ∧
      msA'.map Mv.core = msR'.map Mv.core := by
  intro items
  induction items with
  | nil =>
    intro psA psR msA msR psA' msA' psR' msR' hEA hER hps hms
    simp only [autoReceiveLoop, Prod.mk.injEq] at hEA
    simp only [receiveLoop, Prod.mk.injEq] at hER
    obtain ⟨a1, a2⟩ := hEA
    obtain ⟨r1, r2⟩ := hER
    subst a1; subst a2; subst r1; subst r2
    exact ⟨hps, hms⟩
  | cons it rest ih =>
    intro psA psR msA msR psA' msA' psR' msR' hEA hER hps hms
    cases hgR : getProduct psR it.product with
    | none =>
      have hgA : getProduct psA it.product = none := by
        have h0 := hps it.product
        rw [hgR] at h0
        simpa using h0
      rw [autoReceiveLoop, hgA] at hEA
      rw [receiveLoop, hgR] at hER
      exact ih _ _ _ _ _ _ _ _ hEA hER hps hms
    | some pR =>
      obtain ⟨pA, hgA⟩ : ∃ pA, getProduct psA it.product = some pA := by
        have h0 := hps it.product
        rw [hgR] at h0
        cases hA : getProduct psA it.product with
        | none => rw [hA] at h0; simp at h0
        | some pA => exact ⟨pA, rfl⟩
      have hcs : pA.currentStock = pR.currentStock := by
        have h0 := hps it.product
        rw [hgR, hgA] at h0
        simpa using h0
      have hps' : ∀ pid,
          (getProduct (setProduct psA it.product
            (autoReceiveCost pA it.quantity it.unitCost)) pid).map Product.currentStock =
          (getProduct (setProduct psR it.product
            (receivePurchaseCost pR it.quantity it.unitCost)) pid).map Product.currentStock := by
        intro pid
        by_cases hpid : pid = it.product
        · subst hpid
          rw [getProduct_setProduct_self, getProduct_setProduct_self, hgA, hgR]
          simp [autoReceiveCost, receivePurchaseCost, hcs]
        · rw [getProduct_setProduct_ne _ _ _ _ hpid, getProduct_setProduct_ne _ _ _ _ hpid]
          exact hps pid
      have hms' :
          (msA ++ [({ product := it.product, type := .tIn, reason := .purchase,
                      quantity := it.quantity, previousStock := pA.currentStock,
                      newStock := pA.currentStock + it.quantity,
                      unitCost := some it.unitCost, totalCost := some it.totalWithTax,
                      supplier := some sid, referenceType := some .purchase,
                      performedBy := uid, notes := some "Purchase" } : Mv)]).map Mv.core =
          (msR ++ [({ product := it.product, type := .tIn, reason := .purchase,
                      quantity := it.quantity, previousStock := pR.currentStock,
                      newStock := pR.currentStock + it.quantity,
                      unitCost := some it.unitCost, totalCost := some it.totalWithTax,
                      supplier := some sid, referenceType := some .purchase,
                      performedBy := uid, notes := some "Purchase - receive" } : Mv)]).map Mv.core := by
        simp [Mv.core, hms, hcs]
      rw [autoReceiveLoop, hgA] at hEA
      rw [receiveLoop, hgR] at hER
      exact ih _ _ _ _ _ _ _ _ hEA hER hps' hms'

/-- C6 (amended): the first payment of a draft document fires the stock
side effect exactly once — a state with stockDeducted (stockAdded for a
purchase) already true moves no stock — and when every line item is
coverable the payment loop produces exactly the products and (up to the
free-text notes) the movements that confirmInvoice would, setting
stockDeducted; but an uncoverable item is silently skipped by the payment
loop where confirm would reject.  A purchase payment fires the effect only
for method cash or card: a cash or card payment on a draft purchase with
stockAdded false succeeds, produces (up to notes) the movements that
receivePurchase would, matches its stock counts on every product (only the
average-cost rule differs, claim C3) and sets stockAdded true, which guards
any further firing. -/
theorem c6_amended :
    (∀ st uid a m, st.invoice.stockDeducted = true →
      (recordInvoicePayment st uid a m).1.movements = st.movements ∧
      (recordInvoicePayment st uid a m).1.products = st.products) ∧
    (∀ st uid a m ps' ms',
      st.invoice.status = InvStatus.draft → st.invoice.stockDeducted = false →
      ¬ a > st.invoice.balance →
      confirmLoop uid st.invoice.items st.products st.movements = (ps', ms', none) →
      (recordInvoicePayment st uid a m).2 = none ∧
      (recordInvoicePayment st uid a m).1.products = ps' ∧
      (recordInvoicePayment st uid a m).1.movements.map Mv.core = ms'.map Mv.core ∧
      (recordInvoicePayment st uid a m).1.invoice.stockDeducted = true) ∧
    (∀ uid it rest ps ms p, getProduct ps it.product = some p →
      p.currentStock < it.quantity →
      autoDeductLoop uid (it :: rest) ps ms = autoDeductLoop uid rest ps ms) ∧
    (∀ st uid a m, m ≠ PayMethod.cash → m ≠ PayMethod.card →
      (recordPurchasePayment st uid a m).1.movements = st.movements ∧
      (recordPurchasePayment st uid a m).1.products = st.products) ∧
    (∀ st uid a m, st.purchase.stockAdded = true →
      (recordPurchasePayment st uid a m).1.movements = st.movements ∧
      (recordPurchasePayment st uid a m).1.products = st.products) ∧
    (∀ st uid a m ps' ms',
      st.purchase.status = PurStatus.draft → st.purchase.stockAdded = false →
      ¬ a > st.purchase.balance → (m = PayMethod.cash ∨ m = PayMethod.card) →
      receiveLoop uid st.purchase.supplier st.purchase.items st.products st.movements =
        (ps', ms') →
      (recordPurchasePayment st uid a m).2 = none ∧
      (∀ pid, (getProduct (recordPurchasePayment st uid a m).1.products pid).map
          Product.currentStock = (getProduct ps' pid).map Product.currentStock) ∧
      (recordPurchasePayment st uid a m).1.movements.map Mv.core = ms'.map Mv.core ∧
      (recordPurchasePayment st uid a m).1.purchase.stockAdded = true) := by
  refine ⟨?_, ?_, ?_, ?_, ?_, ?_⟩
  · intro st uid a m hsd
    unfold recordInvoicePayment
    by_cases h1 : st.invoice.status = InvStatus.cancelled
    · simp [h1]
    · by_cases h2 : a > st.invoice.balance
      · simp [h1, h2]
      · simp [h1, h2, hsd]
  · intro st uid a m ps' ms' hdraft hsd hbal hloop
    have h1 : ¬ st.invoice.status = InvStatus.cancelled := by rw [hdraft]; simp
    have hag := autoDeduct_agrees_confirm uid st.invoice.items st.products
      st.movements st.movements ps' ms' rfl hloop
    unfold recordInvoicePayment
    simp only [h1, if_false, ite_false, hbal, hsd, hdraft]
    simp [hag.1, hag.2, invoiceSaveHook_stockDeducted]
  · intro uid it rest ps ms p hg hlt
    have hge : ¬ p.currentStock ≥ it.quantity := not_le.mpr hlt
    rw [autoDeductLoop, hg]
    simp [hge]
  · intro st uid a m hc1 hc2
    unfold recordPurchasePayment
    by_cases h1 : st.purchase.status = PurStatus.cancelled
    · simp [h1]
    · by_cases h2 : a > st.purchase.balance
      · simp [h1, h2]
      · simp [h1, h2, hc1, hc2]
  · intro st uid a m hsa
    unfold recordPurchasePayment
    by_cases h1 : st.purchase.status = PurStatus.cancelled
    · simp [h1]
    · by_cases h2 : a > st.purchase.balance
      · simp [h1, h2]
      · simp [h1, h2, hsa]
  · intro st uid a m ps' ms' hdraft hsa hbal hm hloop
    have h1 : ¬ st.purchase.status = PurStatus.cancelled := by rw [hdraft]; simp
    have hag := autoReceive_agrees_receive uid st.purchase.supplier st.purchase.items
      st.products st.products st.movements st.movements
      (autoReceiveLoop uid st.purchase.supplier st.purchase.items st.products st.movements).1
      (autoReceiveLoop uid st.purchase.supplier st.purchase.items st.products st.movements).2
      ps' ms' rfl hloop (fun pid => rfl) rfl
    unfold recordPurchasePayment
    rcases hm with hm | hm <;> subst hm <;>
      simp only [h1, if_false, ite_false, hbal, hsa, hdraft] <;>
      simp [hag.1, hag.2, purchaseSaveHook_stockAdded]

/-- C6 witness: a first payment of 40 on the coverable draft invoice of c4St
succeeds, deducts the 5 units exactly as confirm would (product 1 drops from
10 to 5) and marks stockDeducted; and a first cash payment of 50 on the
draft purchase of c4St succeeds, raises product 1 from 10 to 14 as
receivePurchase would, and marks stockAdded. -/
theorem c6_witness :
    ((recordInvoicePayment c4St 9 40 PayMethod.cash).2 = none ∧
     (recordInvoicePayment c4St 9 40 PayMethod.cash).1.products =
       [(1, { currentStock := 5, averageCost := 5 })] ∧
     (recordInvoicePayment c4St 9 40 PayMethod.cash).1.invoice.stockDeducted = true) ∧
    ((recordPurchasePayment c4St 9 50 PayMethod.cash).2 = none ∧
     (getProduct (recordPurchasePayment c4St 9 50 PayMethod.cash).1.products 1).map
       Product.currentStock = some 14 ∧
     (recordPurchasePayment c4St 9 50 PayMethod.cash).1.purchase.stockAdded = true) := by
  have hloop : confirmLoop 9 c4St.invoice.items c4St.products c4St.movements =
      ([(1, { currentStock := 5, averageCost := 5 })],
       [{ product := 1, type := MvType.tOut, reason := MvReason.sale, quantity := 5,
          previousStock := 10, newStock := 5, unitCost := some 20, totalCost := some 100,
          referenceType := some RefType.invoice, notes := some "Invoice - Sale",
          performedBy := 9 }], none) := by
    norm_num +decide [c4St, invDoc1, itm1, prodMap1, confirmLoop, getProduct, setProduct,
      invoiceSaveHook, invoiceApplyStatus, invoiceRecomputeTotals, invRounded, invGrand, invSubtotal,
      invTotalDiscount, invTotalTaxA, invTotalTaxB, invTotalAEx, invTotalB18,
      hookItem, itemNet, jsRound2]
  have hdraft : c4St.invoice.status = InvStatus.draft := by
    norm_num +decide [c4St, invDoc1, itm1, invoiceSaveHook, invoiceApplyStatus, invoiceRecomputeTotals, invRounded, invGrand,
      invSubtotal, invTotalDiscount, invTotalTaxA, invTotalTaxB, invTotalAEx, invTotalB18,
      hookItem, itemNet, jsRound2]
  have hsd : c4St.invoice.stockDeducted = false := by
    norm_num +decide [c4St, invDoc1, itm1, invoiceSaveHook, invoiceApplyStatus, invoiceRecomputeTotals, invRounded, invGrand,
      invSubtotal, invTotalDiscount, invTotalTaxA, invTotalTaxB, invTotalAEx, invTotalB18,
      hookItem, itemNet, jsRound2]
  have hbal : ¬ (40 : ℚ) > c4St.invoice.balance := by
    norm_num +decide [c4St, invDoc1, itm1, invoiceSaveHook, invoiceApplyStatus, invoiceRecomputeTotals, invRounded, invGrand,
      invSubtotal, invTotalDiscount, invTotalTaxA, invTotalTaxB, invTotalAEx, invTotalB18,
      hookItem, itemNet, jsRound2]
  have h := c6_amended.2.1 c4St 9 40 PayMethod.cash _ _ hdraft hsd hbal hloop
  have hloopP : receiveLoop 9 c4St.purchase.supplier c4St.purchase.items
      c4St.products c4St.movements =
      ([(1, { currentStock := 14, averageCost := 75 / 7 })],
       [{ product := 1, type := MvType.tIn, reason := MvReason.purchase, quantity := 4,
          previousStock := 10, newStock := 14, unitCost := some 25, totalCost := some 100,
          supplier := some 2, referenceType := some RefType.purchase, performedBy := 9,
          notes := some "Purchase - receive" }]) := by
    norm_num +decide [c4St, prodMap1, pitm1, createPurchase, purchaseSaveHook,
      purchaseApplyStatus, purchaseRecomputeTotals, purRounded, purGrand, purSubtotal,
      purTotalDiscount, purTotalTaxA, purTotalTaxB, purTotalAEx, purTotalB18,
      purHookItem, purItemNet, jsRound2, receiveLoop, receivePurchaseCost,
      getProduct, setProduct]
  have hdraftP : c4St.purchase.status = PurStatus.draft := by
    norm_num +decide [c4St, pitm1, createPurchase, purchaseSaveHook, purchaseApplyStatus,
      purchaseRecomputeTotals, purRounded, purGrand, purSubtotal, purTotalDiscount,
      purTotalTaxA, purTotalTaxB, purTotalAEx, purTotalB18, purHookItem, purItemNet, jsRound2]
  have hsaP : c4St.purchase.stockAdded = false := by
    norm_num +decide [c4St, pitm1, createPurchase, purchaseSaveHook, purchaseApplyStatus,
      purchaseRecomputeTotals, purRounded, purGrand, purSubtotal, purTotalDiscount,
      purTotalTaxA, purTotalTaxB, purTotalAEx, purTotalB18, purHookItem, purItemNet, jsRound2]
  have hbalP : ¬ (50 : ℚ) > c4St.purchase.balance := by
    norm_num +decide [c4St, pitm1, createPurchase, purchaseSaveHook, purchaseApplyStatus,
      purchaseRecomputeTotals, purRounded, purGrand, purSubtotal, purTotalDiscount,
      purTotalTaxA, purTotalTaxB, purTotalAEx, purTotalB18, purHookItem, purItemNet, jsRound2]
  have hP := c6_amended.2.2.2.2.2 c4St 9 50 PayMethod.cash _ _ hdraftP hsaP hbalP
    (Or.inl rfl) hloopP
  refine ⟨⟨h.1, h.2.1, h.2.2.2⟩, hP.1, ?_, hP.2.2.2⟩
  rw [hP.2.1 1]
  norm_num +decide [getProduct]

/-! ## C4: confirm then cancel round trip -/

theorem qtyForInv_cons (pid : Nat) (it : InvoiceItem) (rest : List InvoiceItem) :
    qtyForInv pid (it :: rest) =
      (if it.product = pid then it.quantity else 0) + qtyForInv pid rest := by
  unfold qtyForInv
  by_cases h : it.product = pid <;> simp [h]

theorem qtyForInv_map_hookItem (pid : Nat) (items : List InvoiceItem) :
    qtyForInv pid (items.map hookItem) = qtyForInv pid items := by
  induction items with
  | nil => rfl
  | cons it rest ih =>
    rw [List.map_cons, qtyForInv_cons, qtyForInv_cons, ih]
    simp [hookItem]

theorem confirmLoop_ok_products (uid : Nat) :
    ∀ (items : List InvoiceItem) (ps : ProductMap) (ms : List Mv)
      (ps' : ProductMap) (ms' : List Mv),
      confirmLoop uid items ps ms = (ps', ms', none) →
      ∀ pid, getProduct ps' pid = (getProduct ps pid).map
        (fun p => { p with currentStock := p.currentStock - qtyForInv pid items }) := by
  intro items
  induction items with
  | nil =>
    intro ps ms ps' ms' hC pid
    simp only [confirmLoop, Prod.mk.injEq] at hC
    obtain ⟨h1, _, _⟩ := hC
    subst h1
    cases hg : getProduct ps pid <;> simp [qtyForInv, hg]
  | cons it rest ih =>
    intro ps ms ps' ms' hC pid
    cases hg : getProduct ps it.product with
    | none => rw [confirmLoop, hg] at hC; simp at hC
    | some p =>
      by_cases hlt : p.currentStock < it.quantity
      · rw [confirmLoop, hg] at hC; simp [hlt] at hC
      · rw [confirmLoop, hg] at hC
        simp only [hlt, if_false, ite_false] at hC
        have h2 := ih _ _ _ _ hC pid
        rw [h2, qtyForInv_cons]
        by_cases hp : it.product = pid
        · subst hp
          rw [getProduct_setProduct_self, hg]
          simp only [Option.map_map, Option.map_some', Function.comp_apply, Option.some_inj,
            Product.mk.injEq, if_true, ite_true, and_true]
          ring
        · rw [getProduct_setProduct_ne _ _ _ _ (fun hc => hp hc.symm)]
          simp [hp]

theorem confirmLoop_ok_presence (uid : Nat) :
    ∀ (items : List InvoiceItem) (ps : ProductMap) (ms : List Mv)
      (ps' : ProductMap) (ms' : List Mv),
      confirmLoop uid items ps ms = (ps', ms', none) →
      ∀ it ∈ items, (getProduct ps it.product).isSome := by
  intro items
  induction items with
  | nil => intro ps ms ps' ms' _ it hit; simp at hit
  | cons it0 rest ih =>
    intro ps ms ps' ms' hC it hit
    cases hg : getProduct ps it0.product with
    | none => rw [confirmLoop, hg] at hC; simp at hC
    | some p =>
      by_cases hlt : p.currentStock < it0.quantity
      · rw [confirmLoop, hg] at hC; simp [hlt] at hC
      · rw [confirmLoop, hg] at hC
        simp only [hlt, if_false, ite_false] at hC
        rcases List.mem_cons.mp hit with h | h
        · subst h; rw [hg]; rfl
        · have := ih _ _ _ _ hC it h
          rw [← getProduct_setProduct_isSome ps it0.product it.product
            { p with currentStock := p.currentStock - it0.quantity }]
          exact this

theorem cancelInvLoop_products (uid : Nat) :
    ∀ (items : List InvoiceItem) (ps : ProductMap) (pid : Nat),
      (∀ it ∈ items, (getProduct ps it.product).isSome) →
      ∀ ms : List Mv,
      getProduct (cancelInvLoop uid items ps ms).1 pid = (getProduct ps pid).map
        (fun p => { p with currentStock := p.currentStock + qtyForInv pid items }) := by
  intro items
  induction items with
  | nil =>
    intro ps pid _ ms
    cases hg : getProduct ps pid <;> simp [cancelInvLoop, qtyForInv, hg]
  | cons it rest ih =>
    intro ps pid hpres ms
    have hhead := hpres it (List.mem_cons_self it rest)
    cases hg : getProduct ps it.product with
    | none => rw [hg] at hhead; simp at hhead
    | some p =>
      rw [cancelInvLoop, hg]
      have hrest : ∀ it0 ∈ rest,
          (getProduct (setProduct ps it.product
            { p with currentStock := p.currentStock + it.quantity }) it0.product).isSome := by
        intro it0 h0
        rw [getProduct_setProduct_isSome]
        exact hpres it0 (List.mem_cons_of_mem it h0)
      rw [ih _ pid hrest, qtyForInv_cons]
      by_cases hp : it.product = pid
      · subst hp
        rw [getProduct_setProduct_self, hg]
        simp only [Option.map_map, Option.map_some', Function.comp_apply, Option.some_inj,
          Product.mk.injEq, if_true, ite_true, and_true]
        ring
      · rw [getProduct_setProduct_ne _ _ _ _ (fun hc => hp hc.symm)]
        simp [hp]

/-- C4: confirming a draft invoice whose stock check passes and then
cancelling it restores every product to its pre-confirm state (the paired
out/sale and in/return movements cancel out) and restores the client
outstandingBalance exactly (the cancel subtracts the unpaid remainder
roundedAmount minus amountPaid, which for the freshly confirmed unpaid
invoice is the whole roundedAmount the confirm added, and the zero floor
does not bite for a non-negative starting balance). -/
theorem c4_roundtrip (st : St) (uid uid' : Nat) (r : String) (c : Client)
    (hcl : st.client = some c) (hob : 0 ≤ c.outstandingBalance)
    (hpaid : st.invoice.amountPaid = 0)
    (hok : (confirmInvoice st uid).2 = none) :
    (∀ pid, getProduct (cancelInvoice (confirmInvoice st uid).1 uid' r).1.products pid =
      getProduct st.products pid) ∧
    (cancelInvoice (confirmInvoice st uid).1 uid' r).1.client = st.client := by
  by_cases hdraft : st.invoice.status ≠ InvStatus.draft
  · rw [confirmInvoice] at hok
    simp [hdraft] at hok
  · rcases hE : confirmLoop uid st.invoice.items st.products st.movements with ⟨ps1, ms1, e⟩
    cases e with
    | some err =>
      rw [confirmInvoice] at hok
      simp only [hdraft, if_false, ite_false] at hok
      rw [hE] at hok
      simp at hok
    | none =>
      have hst1 : (confirmInvoice st uid).1 =
          { products := ps1, movements := ms1,
            invoice := invoiceSaveHook
              { st.invoice with
                status := InvStatus.confirmed, stockDeducted := true,
                confirmedDateSet := true, confirmedBy := some uid },
            client := some { c with outstandingBalance := c.outstandingBalance +
              (invoiceSaveHook
                { st.invoice with
                  status := InvStatus.confirmed, stockDeducted := true,
                  confirmedDateSet := true, confirmedBy := some uid }).roundedAmount },
            purchase := st.purchase } := by
        rw [confirmInvoice]
        simp only [hdraft, if_false, ite_false]
        rw [hE, hcl]
      set invC : Invoice :=
        { st.invoice with
          status := InvStatus.confirmed, stockDeducted := true,
          confirmedDateSet := true, confirmedBy := some uid } with hinvC
      have hCpaid : invC.amountPaid = 0 := hpaid
      have hhookPaid : (invoiceSaveHook invC).amountPaid = 0 := by
        rw [invoiceSaveHook_amountPaid]; exact hCpaid
      have hstatus : (invoiceSaveHook invC).status = InvStatus.confirmed := by
        rw [invoiceSaveHook_status_unpaid invC hCpaid]
      have hsd : (invoiceSaveHook invC).stockDeducted = true := by
        rw [invoiceSaveHook_stockDeducted]
      have hitems : (invoiceSaveHook invC).items = st.invoice.items.map hookItem := by
        rw [invoiceSaveHook_items]
      rw [hst1]
      rw [cancelInvoice]
      simp only [hstatus]
      have hnp : ¬ (InvStatus.confirmed = InvStatus.paid) := by simp
      simp only [hnp, if_false, ite_false, hsd, if_true, ite_true, hhookPaid, hitems]
      constructor
      · intro pid
        have hpres1 : ∀ it ∈ st.invoice.items.map hookItem,
            (getProduct ps1 it.product).isSome := by
          intro it hit
          rcases List.mem_map.mp hit with ⟨it0, hit0, hmap⟩
          have hpres0 := confirmLoop_ok_presence uid _ _ _ _ _ hE it0 hit0
          have heq := confirmLoop_ok_products uid _ _ _ _ _ hE it0.product
          subst hmap
          show (getProduct ps1 (hookItem it0).product).isSome
          have : (hookItem it0).product = it0.product := by simp [hookItem]
          rw [this, heq]
          cases hg : getProduct st.products it0.product
          · rw [hg] at hpres0; simp at hpres0
          · simp
        rw [cancelInvLoop_products uid' _ _ _ hpres1 _,
          qtyForInv_map_hookItem,
          confirmLoop_ok_products uid _ _ _ _ _ hE pid]
        cases hg : getProduct st.products pid with
        | none => simp
        | some p =>
          simp only [Option.map_map, Option.map_some', Function.comp_apply, Option.some_inj,
            Product.mk.injEq, if_true, ite_true, and_true]
          ring
      · have hflip : c.outstandingBalance +
            (invoiceSaveHook invC).roundedAmount -
            ((invoiceSaveHook invC).roundedAmount - 0) = c.outstandingBalance := by
          ring
        rw [hflip]
        have hnl : ¬ (c.outstandingBalance < 0) := not_lt.mpr hob
        simp only [hnl, if_false, ite_false]
        rw [hcl]

/-- C4 witness: the round trip on the concrete store c4St (one item of 5
units on a product holding 10, client balance 30) restores product 1 and the
client exactly. -/
theorem c4_witness :
    (∀ pid, getProduct (cancelInvoice (confirmInvoice c4St 9).1 8 "why").1.products pid =
      getProduct c4St.products pid) ∧
    (cancelInvoice (confirmInvoice c4St 9).1 8 "why").1.client = c4St.client := by
  have hcl : c4St.client = some { outstandingBalance := 30, totalPurchases := 0 } := rfl
  have hpaid : c4St.invoice.amountPaid = 0 := by
    show invDoc1.amountPaid = 0
    rw [invDoc1, invoiceSaveHook_amountPaid]
  have hok : (confirmInvoice c4St 9).2 = none := by
    norm_num +decide [c4St, invDoc1, itm1, prodMap1, confirmInvoice, confirmLoop,
      getProduct, setProduct, invoiceSaveHook, invoiceApplyStatus, invoiceRecomputeTotals,
      invRounded, invGrand, invSubtotal,
      invTotalDiscount, invTotalTaxA, invTotalTaxB, invTotalAEx, invTotalB18,
      hookItem, itemNet, jsRound2]
  exact c4_roundtrip c4St 9 8 "why" _ hcl (by norm_num) hpaid hok

/-! ## C2: the balance/status document invariant -/

theorem itemNet_hookItem (it : InvoiceItem) : itemNet (hookItem it) = itemNet it := by
  simp [itemNet, hookItem]

theorem invTotalAEx_map_hookItem (items : List InvoiceItem) :
    invTotalAEx (items.map hookItem) = invTotalAEx items := by
  induction items with
  | nil => rfl
  | cons it rest ih =>
    by_cases h : it.taxCode = TaxCode.tA <;>
      simp [invTotalAEx, hookItem, itemNet, h] at ih ⊢ <;> linarith

theorem invTotalB18_map_hookItem (items : List InvoiceItem) :
    invTotalB18 (items.map hookItem) = invTotalB18 items := by
  induction items with
  | nil => rfl
  | cons it rest ih =>
    by_cases h : it.taxCode = TaxCode.tB <;>
      simp [invTotalB18, hookItem, itemNet, h] at ih ⊢ <;> linarith

theorem invTotalTaxA_map_hookItem (items : List InvoiceItem) :
    invTotalTaxA (items.map hookItem) = invTotalTaxA items := by
  induction items with
  | nil => rfl
  | cons it rest ih =>
    by_cases h : it.taxCode = TaxCode.tA <;>
      simp [invTotalTaxA, hookItem, itemNet, h] at ih ⊢ <;> linarith

theorem invTotalTaxB_map_hookItem (items : List InvoiceItem) :
    invTotalTaxB (items.map hookItem) = invTotalTaxB items := by
  induction items with
  | nil => rfl
  | cons it rest ih =>
    by_cases h : it.taxCode = TaxCode.tB <;>
      simp [invTotalTaxB, hookItem, itemNet, h] at ih ⊢ <;> linarith

theorem invSubtotal_map_hookItem (items : List InvoiceItem) :
    invSubtotal (items.map hookItem) = invSubtotal items := by
  induction items with
  | nil => rfl
  | cons it rest ih => simp [invSubtotal, hookItem] at ih ⊢; linarith

theorem invTotalDiscount_map_hookItem (items : List InvoiceItem) :
    invTotalDiscount (items.map hookItem) = invTotalDiscount items := by
  induction items with
  | nil => rfl
  | cons it rest ih => simp [invTotalDiscount, hookItem] at ih ⊢; linarith

theorem invRounded_map_hookItem (items : List InvoiceItem) :
    invRounded (items.map hookItem) = invRounded items := by
  unfold invRounded invGrand
  rw [invSubtotal_map_hookItem, invTotalDiscount_map_hookItem,
    invTotalTaxA_map_hookItem, invTotalTaxB_map_hookItem]

theorem purItemNet_purHookItem (it : PurchaseItem) :
    purItemNet (purHookItem it) = purItemNet it := by
  simp [purItemNet, purHookItem]

theorem purTotalTaxA_map_purHookItem (items : List PurchaseItem) :
    purTotalTaxA (items.map purHookItem) = purTotalTaxA items := by
  induction items with
  | nil => rfl
  | cons it rest ih =>
    by_cases h : it.taxCode = TaxCode.tA <;>
      simp [purTotalTaxA, purHookItem, purItemNet, h] at ih ⊢ <;> linarith

theorem purTotalTaxB_map_purHookItem (items : List PurchaseItem) :
    purTotalTaxB (items.map purHookItem) = purTotalTaxB items := by
  induction items with
  | nil => rfl
  | cons it rest ih =>
    by_cases h : it.taxCode = TaxCode.tB <;>
      simp [purTotalTaxB, purHookItem, purItemNet, h] at ih ⊢ <;> linarith

theorem purSubtotal_map_purHookItem (items : List PurchaseItem) :
    purSubtotal (items.map purHookItem) = purSubtotal items := by
  induction items with
  | nil => rfl
  | cons it rest ih => simp [purSubtotal, purHookItem] at ih ⊢; linarith

theorem purTotalDiscount_map_purHookItem (items : List PurchaseItem) :
    purTotalDiscount (items.map purHookItem) = purTotalDiscount items := by
  induction items with
  | nil => rfl
  | cons it rest ih => simp [purTotalDiscount, purHookItem] at ih ⊢; linarith

theorem purRounded_map_purHookItem (items : List PurchaseItem) :
    purRounded (items.map purHookItem) = purRounded items := by
  unfold purRounded purGrand
  rw [purSubtotal_map_purHookItem, purTotalDiscount_map_purHookItem,
    purTotalTaxA_map_purHookItem, purTotalTaxB_map_purHookItem]

theorem invoiceApplyStatus_paid_of (inv : Invoice)
    (h : inv.amountPaid ≥ inv.roundedAmount ∧ inv.roundedAmount > 0) :
    (invoiceApplyStatus inv).status = InvStatus.paid := by
  unfold invoiceApplyStatus
  simp [h.1, h.2]

theorem invoiceApplyStatus_partly_of (inv : Invoice)
    (h : 0 < inv.amountPaid ∧ inv.amountPaid < inv.roundedAmount) :
    (invoiceApplyStatus inv).status = InvStatus.partly := by
  unfold invoiceApplyStatus
  have hno : ¬ (inv.amountPaid ≥ inv.roundedAmount ∧ inv.roundedAmount > 0) :=
    fun hc => absurd h.2 (not_lt.mpr hc.1)
  simp [hno, h.1, h.2]

theorem purchaseApplyStatus_paid_of (pur : Purchase)
    (h : pur.amountPaid ≥ pur.roundedAmount ∧ pur.roundedAmount > 0) :
    (purchaseApplyStatus pur).status = PurStatus.paid := by
  unfold purchaseApplyStatus
  simp [h.1, h.2]

theorem purchaseApplyStatus_partly_of (pur : Purchase)
    (h : 0 < pur.amountPaid ∧ pur.amountPaid < pur.roundedAmount) :
    (purchaseApplyStatus pur).status = PurStatus.partly := by
  unfold purchaseApplyStatus
  have hno : ¬ (pur.amountPaid ≥ pur.roundedAmount ∧ pur.roundedAmount > 0) :=
    fun hc => absurd h.2 (not_lt.mpr hc.1)
  simp [hno, h.1, h.2]

/-- The save hook establishes the document invariant from three facts about
the document being saved: non-negative amountPaid, amountPaid within the
recomputed total (or zero), and the all-zero shape of an itemless
document. -/
theorem InvDocInv_hook (inv : Invoice)
    (h0 : 0 ≤ inv.amountPaid)
    (h1 : inv.items ≠ [] → (inv.amountPaid ≤ invRounded inv.items ∨ inv.amountPaid = 0))
    (h3 : inv.items = [] → inv.roundedAmount = 0 ∧ inv.amountPaid = 0 ∧ inv.balance = 0) :
    InvDocInv (invoiceSaveHook inv) := by
  have hpaid := invoiceSaveHook_amountPaid inv
  have hR := invoiceSaveHook_roundedAmount inv
  have hB := invoiceSaveHook_balance inv
  have hIt := invoiceSaveHook_items inv
  by_cases hit : inv.items = []
  · obtain ⟨e1, e2, e3⟩ := h3 hit
    refine ⟨?_, ?_, ?_, ?_, ?_, ?_, ?_⟩
    · rw [hpaid, hR, hB]; simp [hit, e1, e2, e3]
    · rw [hpaid]; exact h0
    · right; rw [hpaid]; exact e2
    · intro hne; rw [hIt, hit] at hne; simp at hne
    · intro _; rw [hpaid, hR, hB]; simp [hit, e1, e2, e3]
    · intro hc
      rw [hpaid, hR] at hc
      simp only [hit, if_true, ite_true] at hc
      rw [e1] at hc
      exact absurd hc.2 (lt_irrefl 0)
    · intro hc
      rw [hpaid, hR] at hc
      simp only [hit, if_true, ite_true] at hc
      rw [e2] at hc
      exact absurd hc.1 (lt_irrefl 0)
  · have hRv : (invoiceSaveHook inv).roundedAmount = invRounded inv.items := by
      rw [hR]; simp [hit]
    have hBv : (invoiceSaveHook inv).balance = invRounded inv.items - inv.amountPaid := by
      rw [hB]; simp [hit]
    refine ⟨?_, ?_, ?_, ?_, ?_, ?_, ?_⟩
    · rw [hpaid, hRv, hBv]
    · rw [hpaid]; exact h0
    · rw [hpaid, hRv]; exact h1 hit
    · intro _; rw [hIt, hRv, invRounded_map_hookItem]
    · intro hc; rw [hIt] at hc; simp [hit] at hc
    · intro hc
      rw [hpaid, hRv] at hc
      rw [invoiceSaveHook]
      apply invoiceApplyStatus_paid_of
      rw [invoiceRecomputeTotals_amountPaid, invoiceRecomputeTotals_roundedAmount]
      simp only [hit, if_false, ite_false]
      exact hc
    · intro hc
      rw [hpaid, hRv] at hc
      rw [invoiceSaveHook]
      apply invoiceApplyStatus_partly_of
      rw [invoiceRecomputeTotals_amountPaid, invoiceRecomputeTotals_roundedAmount]
      simp only [hit, if_false, ite_false]
      exact hc

/-- Purchase version of the hook invariant lemma. -/
theorem PurDocInv_hook (pur : Purchase)
    (h0 : 0 ≤ pur.amountPaid)
    (h1 : pur.items ≠ [] → (pur.amountPaid ≤ purRounded pur.items ∨ pur.amountPaid = 0))
    (h3 : pur.items = [] → pur.roundedAmount = 0 ∧ pur.amountPaid = 0 ∧ pur.balance = 0) :
    PurDocInv (purchaseSaveHook pur) := by
  have hpaid := purchaseSaveHook_amountPaid pur
  have hR := purchaseSaveHook_roundedAmount pur
  have hB := purchaseSaveHook_balance pur
  have hIt := purchaseSaveHook_items pur
  by_cases hit : pur.items = []
  · obtain ⟨e1, e2, e3⟩ := h3 hit
    refine ⟨?_, ?_, ?_, ?_, ?_, ?_, ?_⟩
    · rw [hpaid, hR, hB]; simp [hit, e1, e2, e3]
    · rw [hpaid]; exact h0
    · right; rw [hpaid]; exact e2
    · intro hne; rw [hIt, hit] at hne; simp at hne
    · intro _; rw [hpaid, hR, hB]; simp [hit, e1, e2, e3]
    · intro hc
      rw [hpaid, hR] at hc
      simp only [hit, if_true, ite_true] at hc
      rw [e1] at hc
      exact absurd hc.2 (lt_irrefl 0)
    · intro hc
      rw [hpaid, hR] at hc
      simp only [hit, if_true, ite_true] at hc
      rw [e2] at hc
      exact absurd hc.1 (lt_irrefl 0)
  · have hRv : (purchaseSaveHook pur).roundedAmount = purRounded pur.items := by
      rw [hR]; simp [hit]
    have hBv : (purchaseSaveHook pur).balance = purRounded pur.items - pur.amountPaid := by
      rw [hB]; simp [hit]
    refine ⟨?_, ?_, ?_, ?_, ?_, ?_, ?_⟩
    · rw [hpaid, hRv, hBv]
    · rw [hpaid]; exact h0
    · rw [hpaid, hRv]; exact h1 hit
    · intro _; rw [hIt, hRv, purRounded_map_purHookItem]
    · intro hc; rw [hIt] at hc; simp [hit] at hc
    · intro hc
      rw [hpaid, hRv] at hc
      rw [purchaseSaveHook]
      apply purchaseApplyStatus_paid_of
      rw [purchaseRecomputeTotals_amountPaid, purchaseRecomputeTotals_roundedAmount]
      simp only [hit, if_false, ite_false]
      exact hc
    · intro hc
      rw [hpaid, hRv] at hc
      rw [purchaseSaveHook]
      apply purchaseApplyStatus_partly_of
      rw [purchaseRecomputeTotals_amountPaid, purchaseRecomputeTotals_roundedAmount]
      simp only [hit, if_false, ite_false]
      exact hc

theorem InvDocInv_bound (inv : Invoice) (h : InvDocInv inv) :
    inv.items ≠ [] → (inv.amountPaid ≤ invRounded inv.items ∨ inv.amountPaid = 0) := by
  intro hne
  rcases h.2.2.1 with hle | hz
  · left; rw [← h.2.2.2.1 hne]; exact hle
  · right; exact hz

theorem PurDocInv_bound (pur : Purchase) (h : PurDocInv pur) :
    pur.items ≠ [] → (pur.amountPaid ≤ purRounded pur.items ∨ pur.amountPaid = 0) := by
  intro hne
  rcases h.2.2.1 with hle | hz
  · left; rw [← h.2.2.2.1 hne]; exact hle
  · right; exact hz

theorem InvDocInv_create (ps : ProductMap) (cid : Nat) (items : List InvoiceItem)
    (inv : Invoice) (h : createInvoice ps cid items = Except.ok inv) : InvDocInv inv := by
  unfold createInvoice at h
  cases hchk : createInvoiceCheck ps items with
  | some e => rw [hchk] at h; simp at h
  | none =>
    rw [hchk] at h
    simp only [Except.ok.injEq] at h
    subst h
    apply InvDocInv_hook
    · norm_num
    · intro _; right; rfl
    · intro _; exact ⟨rfl, rfl, rfl⟩

theorem PurDocInv_create (sid : Nat) (pitems : List PurchaseItem) :
    PurDocInv (createPurchase sid pitems) := by
  apply PurDocInv_hook
  · norm_num
  · intro _; right; rfl
  · intro _; exact ⟨rfl, rfl, rfl⟩

theorem confirmInvoice_purchase (st : St) (uid : Nat) :
    (confirmInvoice st uid).1.purchase = st.purchase := by
  unfold confirmInvoice
  by_cases h1 : st.invoice.status ≠ InvStatus.draft
  · simp [h1]
  · simp only [h1, if_false, ite_false]
    rcases confirmLoop uid st.invoice.items st.products st.movements with ⟨ps, ms, e⟩
    cases e <;> simp

theorem recordInvoicePayment_purchase (st : St) (uid : Nat) (a : ℚ) (m : PayMethod) :
    (recordInvoicePayment st uid a m).1.purchase = st.purchase := by
  unfold recordInvoicePayment
  by_cases h1 : st.invoice.status = InvStatus.cancelled
  · simp [h1]
  · by_cases h2 : a > st.invoice.balance
    · simp [h1, h2]
    · simp only [h1, h2, if_false, ite_false]

theorem cancelInvoice_purchase (st : St) (uid : Nat) (r : String) :
    (cancelInvoice st uid r).1.purchase = st.purchase := by
  unfold cancelInvoice
  by_cases h1 : st.invoice.status = InvStatus.paid
  · simp [h1]
  · simp only [h1, if_false, ite_false]

theorem receivePurchase_invoice (st : St) (uid : Nat) :
    (receivePurchase st uid).1.invoice = st.invoice := by
  unfold receivePurchase
  split_ifs <;> simp

theorem recordPurchasePayment_invoice (st : St) (uid : Nat) (a : ℚ) (m : PayMethod) :
    (recordPurchasePayment st uid a m).1.invoice = st.invoice := by
  unfold recordPurchasePayment
  by_cases h1 : st.purchase.status = PurStatus.cancelled
  · simp [h1]
  · by_cases h2 : a > st.purchase.balance
    · simp [h1, h2]
    · simp only [h1, h2, if_false, ite_false]

theorem cancelPurchase_invoice (st : St) (uid : Nat) (r : String) :
    (cancelPurchase st uid r).1.invoice = st.invoice := by
  unfold cancelPurchase
  by_cases h1 : st.purchase.status = PurStatus.paid
  · simp [h1]
  · simp only [h1, if_false, ite_false]

theorem receiveStock_docs (st : St) (uid pid : Nat) (q c : ℚ) (sid : Option Nat) :
    (receiveStock st uid pid q c sid).1.invoice = st.invoice ∧
    (receiveStock st uid pid q c sid).1.purchase = st.purchase := by
  unfold receiveStock
  cases getProduct st.products pid <;> simp

theorem adjustStock_docs (st : St) (uid pid : Nat) (q : ℚ) (dir : AdjDir) (reason : MvReason) :
    (adjustStock st uid pid q dir reason).1.invoice = st.invoice ∧
    (adjustStock st uid pid q dir reason).1.purchase = st.purchase := by
  unfold adjustStock
  by_cases h1 : validAdjReasons.contains reason = true
  · rw [if_neg (by simpa using h1)]
    cases getProduct st.products pid with
    | none => simp
    | some p =>
      cases dir with
      | adjIn => simp
      | adjOut => by_cases h2 : q > p.currentStock <;> simp [h2]
  · rw [if_pos (by simpa using h1)]
    exact ⟨rfl, rfl⟩

theorem deleteStockMovement_docs (st : St) (idx : Nat) :
    (deleteStockMovement st idx).1.invoice = st.invoice ∧
    (deleteStockMovement st idx).1.purchase = st.purchase := by
  unfold deleteStockMovement
  cases st.movements[idx]? with
  | none => simp
  | some m => cases getProduct st.products m.product <;> simp

theorem updateStockMovement_docs (st : St) (idx : Nat) (b : MvPatch) :
    (updateStockMovement st idx b).1.invoice = st.invoice ∧
    (updateStockMovement st idx b).1.purchase = st.purchase := by
  unfold updateStockMovement
  cases st.movements[idx]? <;> simp

theorem InvDocInv_confirmInvoice (st : St) (uid : Nat) (h : InvDocInv st.invoice) :
    InvDocInv (confirmInvoice st uid).1.invoice := by
  unfold confirmInvoice
  by_cases h1 : st.invoice.status ≠ InvStatus.draft
  · simpa [h1] using h
  · simp only [h1, if_false, ite_false]
    rcases confirmLoop uid st.invoice.items st.products st.movements with ⟨ps, ms, e⟩
    cases e with
    | some err => simpa using h
    | none =>
      exact InvDocInv_hook _ h.2.1 (InvDocInv_bound st.invoice h) h.2.2.2.2.1

theorem InvDocInv_payment (st : St) (uid : Nat) (a : ℚ) (m : PayMethod)
    (ha : 0 ≤ a) (h : InvDocInv st.invoice) :
    InvDocInv (recordInvoicePayment st uid a m).1.invoice := by
  unfold recordInvoicePayment
  by_cases h1 : st.invoice.status = InvStatus.cancelled
  · simpa [h1] using h
  · by_cases h2 : a > st.invoice.balance
    · simpa [h1, h2] using h
    · simp only [h1, h2, if_false, ite_false]
      have hbound : st.invoice.items ≠ [] →
          (st.invoice.amountPaid + a ≤ invRounded st.invoice.items ∨
           st.invoice.amountPaid + a = 0) := by
        intro hne
        left
        have hbal : st.invoice.balance =
            st.invoice.roundedAmount - st.invoice.amountPaid := h.1
        have hR := h.2.2.2.1 hne
        have hle : a ≤ st.invoice.roundedAmount - st.invoice.amountPaid := by
          rw [← hbal]; exact not_lt.mp h2
        linarith
      have hempty : st.invoice.items = [] →
          st.invoice.roundedAmount = 0 ∧ st.invoice.amountPaid + a = 0 ∧
          st.invoice.balance = 0 := by
        intro he
        obtain ⟨e1, e2, e3⟩ := h.2.2.2.2.1 he
        have ha0 : a = 0 := by
          have hle := not_lt.mp h2
          rw [e3] at hle
          linarith
        exact ⟨e1, by rw [e2, ha0]; ring, e3⟩
      split_ifs with h3 <;>
        exact InvDocInv_hook _ (add_nonneg h.2.1 ha) hbound hempty

theorem InvDocInv_cancel (st : St) (uid : Nat) (r : String) (h : InvDocInv st.invoice) :
    InvDocInv (cancelInvoice st uid r).1.invoice := by
  unfold cancelInvoice
  by_cases h1 : st.invoice.status = InvStatus.paid
  · simpa [h1] using h
  · simp only [h1, if_false, ite_false]
    exact InvDocInv_hook _ h.2.1 (InvDocInv_bound st.invoice h) h.2.2.2.2.1

theorem PurDocInv_receive (st : St) (uid : Nat) (h : PurDocInv st.purchase) :
    PurDocInv (receivePurchase st uid).1.purchase := by
  unfold receivePurchase
  by_cases h1 : st.purchase.status ≠ PurStatus.draft ∧ st.purchase.status ≠ PurStatus.ordered
  · simpa [h1] using h
  · simp only [h1, if_false, ite_false]
    exact PurDocInv_hook _ h.2.1 (PurDocInv_bound st.purchase h) h.2.2.2.2.1

theorem PurDocInv_payment (st : St) (uid : Nat) (a : ℚ) (m : PayMethod)
    (ha : 0 ≤ a) (h : PurDocInv st.purchase) :
    PurDocInv (recordPurchasePayment st uid a m).1.purchase := by
  unfold recordPurchasePayment
  by_cases h1 : st.purchase.status = PurStatus.cancelled
  · simpa [h1] using h
  · by_cases h2 : a > st.purchase.balance
    · simpa [h1, h2] using h
    · simp only [h1, h2, if_false, ite_false]
      have hbound : st.purchase.items ≠ [] →
          (st.purchase.amountPaid + a ≤ purRounded st.purchase.items ∨
           st.purchase.amountPaid + a = 0) := by
        intro hne
        left
        have hbal : st.purchase.balance =
            st.purchase.roundedAmount - st.purchase.amountPaid := h.1
        have hR := h.2.2.2.1 hne
        have hle : a ≤ st.purchase.roundedAmount - st.purchase.amountPaid := by
          rw [← hbal]; exact not_lt.mp h2
        linarith
      have hempty : st.purchase.items = [] →
          st.purchase.roundedAmount = 0 ∧ st.purchase.amountPaid + a = 0 ∧
          st.purchase.balance = 0 := by
        intro he
        obtain ⟨e1, e2, e3⟩ := h.2.2.2.2.1 he
        have ha0 : a = 0 := by
          have hle := not_lt.mp h2
          rw [e3] at hle
          linarith
        exact ⟨e1, by rw [e2, ha0]; ring, e3⟩
      split_ifs with h3 <;>
        exact PurDocInv_hook _ (add_nonneg h.2.1 ha) hbound hempty

theorem PurDocInv_cancel (st : St) (uid : Nat) (r : String) (h : PurDocInv st.purchase) :
    PurDocInv (cancelPurchase st uid r).1.purchase := by
  unfold cancelPurchase
  by_cases h1 : st.purchase.status = PurStatus.paid
  · simpa [h1] using h
  · simp only [h1, if_false, ite_false]
    exact PurDocInv_hook _ h.2.1 (PurDocInv_bound st.purchase h) h.2.2.2.2.1

theorem DocInv_step (st : St) (op : Op) (hwf : opWF op)
    (hi : InvDocInv st.invoice) (hp : PurDocInv st.purchase) :
    InvDocInv (step st op).1.invoice ∧ PurDocInv (step st op).1.purchase := by
  cases op with
  | opReceiveStock uid pid q c sid =>
    have hd := receiveStock_docs st uid pid q c sid
    exact ⟨hd.1 ▸ hi, hd.2 ▸ hp⟩
  | opAdjustStock uid pid q dir reason =>
    have hd := adjustStock_docs st uid pid q dir reason
    exact ⟨hd.1 ▸ hi, hd.2 ▸ hp⟩
  | opDeleteMovement idx =>
    have hd := deleteStockMovement_docs st idx
    exact ⟨hd.1 ▸ hi, hd.2 ▸ hp⟩
  | opUpdateMovement idx b =>
    have hd := updateStockMovement_docs st idx b
    exact ⟨hd.1 ▸ hi, hd.2 ▸ hp⟩
  | opConfirmInvoice uid =>
    exact ⟨InvDocInv_confirmInvoice st uid hi, (confirmInvoice_purchase st uid) ▸ hp⟩
  | opInvoicePayment uid a m =>
    exact ⟨InvDocInv_payment st uid a m hwf hi,
      (recordInvoicePayment_purchase st uid a m) ▸ hp⟩
  | opCancelInvoice uid r =>
    exact ⟨InvDocInv_cancel st uid r hi, (cancelInvoice_purchase st uid r) ▸ hp⟩
  | opReceivePurchase uid =>
    exact ⟨(receivePurchase_invoice st uid) ▸ hi, PurDocInv_receive st uid hp⟩
  | opPurchasePayment uid a m =>
    exact ⟨(recordPurchasePayment_invoice st uid a m) ▸ hi,
      PurDocInv_payment st uid a m hwf hp⟩
  | opCancelPurchase uid r =>
    exact ⟨(cancelPurchase_invoice st uid r) ▸ hi, PurDocInv_cancel st uid r hp⟩

theorem DocInv_run (st : St) (ops : List Op) (hops : ∀ op ∈ ops, opWF op)
    (hi : InvDocInv st.invoice) (hp : PurDocInv st.purchase) :
    InvDocInv (run st ops).invoice ∧ PurDocInv (run st ops).purchase := by
  induction ops generalizing st with
  | nil => exact ⟨hi, hp⟩
  | cons op rest ih =>
    have h1 := DocInv_step st op (hops op (List.mem_cons_self op rest)) hi hp
    exact ih (step st op).1 (fun o ho => hops o (List.mem_cons_of_mem op ho)) h1.1 h1.2

/-- C2 counterexample: an over-discounted invoice (one unit at price 10 with
discount 50) is accepted by createInvoice and saved with roundedAmount -40,
so its balance is -40, negative, immediately after the creation lifecycle
operation and in contradiction with the claimed non-negativity. -/
theorem c2_counterexample :
    (createInvoice prodMap1 7 [itmNeg]).toOption.map Invoice.balance = some (-40) ∧
    ((-40 : ℚ) < 0) := by
  constructor
  · norm_num +decide [createInvoice, createInvoiceCheck, prodMap1, itmNeg, getProduct,
      invoiceSaveHook, invoiceApplyStatus, invoiceRecomputeTotals, invRounded,
      invGrand, invSubtotal, invTotalDiscount, invTotalTaxA, invTotalTaxB,
      invTotalAEx, invTotalB18, hookItem, itemNet, jsRound2, Except.toOption]
  · norm_num

/-- C2 (amended): starting from a created invoice and a created purchase,
after any sequence of store operations with non-negative payment amounts the
balance of each document equals its roundedAmount minus its amountPaid,
amountPaid is non-negative, status is paid when amountPaid covers a positive
roundedAmount and partial when 0 < amountPaid < roundedAmount; the balance
is moreover non-negative whenever roundedAmount is non-negative — which can
fail: an over-discounted document has negative roundedAmount (the
counterexample) and then a permanently negative balance. -/
theorem c2_amended (st0 : St) (ops : List Op)
    (ps : ProductMap) (cid : Nat) (items : List InvoiceItem)
    (hinv : createInvoice ps cid items = Except.ok st0.invoice)
    (sid : Nat) (pitems : List PurchaseItem)
    (hpur : st0.purchase = createPurchase sid pitems)
    (hops : ∀ op ∈ ops, opWF op) :
    InvDocInv (run st0 ops).invoice ∧ PurDocInv (run st0 ops).purchase ∧
    (0 ≤ (run st0 ops).invoice.roundedAmount → 0 ≤ (run st0 ops).invoice.balance) ∧
    (0 ≤ (run st0 ops).purchase.roundedAmount → 0 ≤ (run st0 ops).purchase.balance) := by
  have hi0 : InvDocInv st0.invoice := InvDocInv_create ps cid items _ hinv
  have hp0 : PurDocInv st0.purchase := by rw [hpur]; exact PurDocInv_create sid pitems
  obtain ⟨hi, hp⟩ := DocInv_run st0 ops hops hi0 hp0
  refine ⟨hi, hp, ?_, ?_⟩
  · intro hR
    rw [hi.1]
    rcases hi.2.2.1 with hle | hz
    · linarith
    · rw [hz]; linarith
  · intro hR
    rw [hp.1]
    rcases hp.2.2.1 with hle | hz
    · linarith
    · rw [hz]; linarith

/-- C2 witness: the invariants instantiated on the concrete store c4St after
a confirm, an invoice payment of 40 and a purchase payment of 50. -/
theorem c2_witness :
    InvDocInv (run c4St
      [Op.opConfirmInvoice 9, Op.opInvoicePayment 9 40 PayMethod.cash,
       Op.opPurchasePayment 9 50 PayMethod.cash]).invoice ∧
    PurDocInv (run c4St
      [Op.opConfirmInvoice 9, Op.opInvoicePayment 9 40 PayMethod.cash,
       Op.opPurchasePayment 9 50 PayMethod.cash]).purchase ∧
    (0 ≤ (run c4St
      [Op.opConfirmInvoice 9, Op.opInvoicePayment 9 40 PayMethod.cash,
       Op.opPurchasePayment 9 50 PayMethod.cash]).invoice.roundedAmount →
     0 ≤ (run c4St
      [Op.opConfirmInvoice 9, Op.opInvoicePayment 9 40 PayMethod.cash,
       Op.opPurchasePayment 9 50 PayMethod.cash]).invoice.balance) ∧
    (0 ≤ (run c4St
      [Op.opConfirmInvoice 9, Op.opInvoicePayment 9 40 PayMethod.cash,
       Op.opPurchasePayment 9 50 PayMethod.cash]).purchase.roundedAmount →
     0 ≤ (run c4St
      [Op.opConfirmInvoice 9, Op.opInvoicePayment 9 40 PayMethod.cash,
       Op.opPurchasePayment 9 50 PayMethod.cash]).purchase.balance) := by
  have hinv : createInvoice prodMap1 7 [itm1] = Except.ok c4St.invoice := by
    norm_num +decide [createInvoice, createInvoiceCheck, prodMap1, itm1, getProduct,
      c4St, invDoc1, invoiceSaveHook, invoiceApplyStatus, invoiceRecomputeTotals,
      invRounded, invGrand, invSubtotal, invTotalDiscount, invTotalTaxA, invTotalTaxB,
      invTotalAEx, invTotalB18, hookItem, itemNet, jsRound2]
  have hpur : c4St.purchase = createPurchase 2 [pitm1] := rfl
  have hops : ∀ op ∈ [Op.opConfirmInvoice 9, Op.opInvoicePayment 9 40 PayMethod.cash,
      Op.opPurchasePayment 9 50 PayMethod.cash], opWF op := by
    intro op hop
    fin_cases hop <;> norm_num [opWF]
  exact c2_amended c4St _ prodMap1 7 [itm1] hinv 2 [pitm1] hpur hops

theorem MovesOk_append (ms : List Mv) (m : Mv) (h : MovesOk ms)
    (hm : mvFormulaB m = true) : MovesOk (ms ++ [m]) := by
  intro x hx
  rcases List.mem_append.mp hx with hx | hx
  · exact h x hx
  · rw [List.mem_singleton.mp hx]; exact hm

theorem lastOk_cons_cons (a b : ℚ × ℚ) (l : List (ℚ × ℚ)) (s : ℚ) :
    lastOk (a :: b :: l) s = lastOk (b :: l) s := by
  unfold lastOk
  rw [List.getLast?_cons_cons]

theorem linkedQ_append_single (l : List (ℚ × ℚ)) (s : ℚ) (a : ℚ × ℚ)
    (hl : linkedQ l) (hlast : lastOk l s) (ha : a.1 = s) : linkedQ (l ++ [a]) := by
  induction l with
  | nil => simp [linkedQ]
  | cons b rest ih =>
    cases rest with
    | nil =>
      have hb : b.2 = s := by simpa [lastOk] using hlast
      exact ⟨by rw [ha, ← hb], trivial⟩
    | cons c rest2 =>
      refine ⟨hl.1, ih hl.2 ?_⟩
      rw [← lastOk_cons_cons b c rest2 s]
      exact hlast

theorem lastOk_concat (l : List (ℚ × ℚ)) (a : ℚ × ℚ) : lastOk (l ++ [a]) a.2 := by
  simp [lastOk, List.getLast?_concat]

theorem keysFor_append_eq (pid : Nat) (ms : List Mv) (m : Mv) (h : m.product = pid) :
    keysFor pid (ms ++ [m]) = keysFor pid ms ++ [(m.previousStock, m.newStock)] := by
  simp [keysFor, keysAll, List.filter_append, chainKey, h]

theorem keysFor_append_ne (pid : Nat) (ms : List Mv) (m : Mv) (h : ¬ m.product = pid) :
    keysFor pid (ms ++ [m]) = keysFor pid ms := by
  simp [keysFor, keysAll, List.filter_append, chainKey, h]

theorem ChainPairOk_push (ps : ProductMap) (ms : List Mv) (m : Mv) (mpid : Nat)
    (p p' : Product)
    (hid : m.product = mpid)
    (hp : getProduct ps mpid = some p)
    (hprev : m.previousStock = p.currentStock)
    (hnew : p'.currentStock = m.newStock)
    (h : ChainPairOk ps ms) :
    ChainPairOk (setProduct ps mpid p') (ms ++ [m]) := by
  subst hid
  intro pid q hq
  by_cases hpid : m.product = pid
  · subst hpid
    rw [getProduct_setProduct_self, hp, Option.map_some'] at hq
    injection hq with hq
    subst hq
    rw [keysFor_append_eq m.product ms m rfl]
    obtain ⟨hl, hlast⟩ := h m.product p hp
    refine ⟨linkedQ_append_single _ p.currentStock _ hl hlast hprev, ?_⟩
    rw [hnew]
    exact lastOk_concat _ _
  · rw [getProduct_setProduct_ne ps m.product pid p' (fun he => hpid he.symm)] at hq
    rw [keysFor_append_ne pid ms m hpid]
    exact h pid q hq

theorem mvFormulaB_patch (m : Mv) (b : MvPatch) :
    mvFormulaB (applyMvPatch m b) = mvFormulaB m := rfl

theorem chainKey_patch (m : Mv) (b : MvPatch) :
    chainKey (applyMvPatch m b) = chainKey m := rfl

theorem map_set_cancel {α β : Type} (f : α → β) (l : List α) :
    ∀ (i : Nat) (a : α), (∀ x, l[i]? = some x → f a = f x) →
      (l.set i a).map f = l.map f := by
  induction l with
  | nil => intro i a _; rfl
  | cons b t ih =>
    intro i a h
    cases i with
    | zero =>
      have hb : f a = f b := h b (by simp)
      show f a :: t.map f = f b :: t.map f
      rw [hb]
    | succ n =>
      show f b :: (t.set n a).map f = f b :: t.map f
      rw [ih n a (fun x hx => h x (by simpa using hx))]

theorem ledger_confirmLoop (uid : Nat) :
    ∀ (items : List InvoiceItem) (ps : ProductMap) (ms : List Mv)
      (ps' : ProductMap) (ms' : List Mv) (e : Option Err),
      confirmLoop uid items ps ms = (ps', ms', e) →
      MovesOk ms → MovesOk ms' ∧ (ChainPairOk ps ms → ChainPairOk ps' ms') := by
  intro items
  induction items with
  | nil =>
    intro ps ms ps' ms' e hC h
    simp only [confirmLoop, Prod.mk.injEq] at hC
    obtain ⟨h1, h2, _⟩ := hC
    subst h1; subst h2
    exact ⟨h, fun hc => hc⟩
  | cons it rest ih =>
    intro ps ms ps' ms' e hC h
    cases hg : getProduct ps it.product with
    | none =>
      rw [confirmLoop, hg] at hC
      simp only [Prod.mk.injEq] at hC
      obtain ⟨h1, h2, _⟩ := hC
      subst h1; subst h2
      exact ⟨h, fun hc => hc⟩
    | some p =>
      by_cases hlt : p.currentStock < it.quantity
      · rw [confirmLoop, hg] at hC
        simp only [hlt, if_true, ite_true, Prod.mk.injEq] at hC
        obtain ⟨h1, h2, _⟩ := hC
        subst h1; subst h2
        exact ⟨h, fun hc => hc⟩
      · rw [confirmLoop, hg] at hC
        simp only [hlt, if_false, ite_false] at hC
        obtain ⟨h1, h2⟩ := ih _ _ _ _ _ hC
          (MovesOk_append ms _ h (by simp [mvFormulaB]))
        exact ⟨h1, fun hc => h2 (ChainPairOk_push ps ms _ _ p _ rfl hg rfl rfl hc)⟩

theorem ledger_autoDeductLoop (uid : Nat) :
    ∀ (items : List InvoiceItem) (ps : ProductMap) (ms : List Mv)
      (ps' : ProductMap) (ms' : List Mv),
      autoDeductLoop uid items ps ms = (ps', ms') →
      MovesOk ms → MovesOk ms' ∧ (ChainPairOk ps ms → ChainPairOk ps' ms') := by
  intro items
  induction items with
  | nil =>
    intro ps ms ps' ms' hC h
    simp only [autoDeductLoop, Prod.mk.injEq] at hC
    obtain ⟨h1, h2⟩ := hC
    subst h1; subst h2
    exact ⟨h, fun hc => hc⟩
  | cons it rest ih =>
    intro ps ms ps' ms' hC h
    cases hg : getProduct ps it.product with
    | none =>
      rw [autoDeductLoop, hg] at hC
      exact ih _ _ _ _ hC h
    | some p =>
      by_cases hge : p.currentStock ≥ it.quantity
      · rw [autoDeductLoop, hg] at hC
        simp only [hge, if_true, ite_true] at hC
        obtain ⟨h1, h2⟩ := ih _ _ _ _ hC
          (MovesOk_append ms _ h (by simp [mvFormulaB]))
        exact ⟨h1, fun hc => h2 (ChainPairOk_push ps ms _ _ p _ rfl hg rfl rfl hc)⟩
      · rw [autoDeductLoop, hg] at hC
        simp only [hge, if_false, ite_false] at hC
        exact ih _ _ _ _ hC h

theorem ledger_cancelInvLoop (uid : Nat) :
    ∀ (items : List InvoiceItem) (ps : ProductMap) (ms : List Mv)
      (ps' : ProductMap) (ms' : List Mv),
      cancelInvLoop uid items ps ms = (ps', ms') →
      MovesOk ms → MovesOk ms' ∧ (ChainPairOk ps ms → ChainPairOk ps' ms') := by
  intro items
  induction items with
  | nil =>
    intro ps ms ps' ms' hC h
    simp only [cancelInvLoop, Prod.mk.injEq] at hC
    obtain ⟨h1, h2⟩ := hC
    subst h1; subst h2
    exact ⟨h, fun hc => hc⟩
  | cons it rest ih =>
    intro ps ms ps' ms' hC h
    cases hg : getProduct ps it.product with
    | none =>
      rw [cancelInvLoop, hg] at hC
      exact ih _ _ _ _ hC h
    | some p =>
      rw [cancelInvLoop, hg] at hC
      obtain ⟨h1, h2⟩ := ih _ _ _ _ hC
        (MovesOk_append ms _ h (by simp [mvFormulaB]))
      exact ⟨h1, fun hc => h2 (ChainPairOk_push ps ms _ _ p _ rfl hg rfl rfl hc)⟩

theorem ledger_receiveLoop (uid sid : Nat) :
    ∀ (items : List PurchaseItem) (ps : ProductMap) (ms : List Mv)
      (ps' : ProductMap) (ms' : List Mv),
      receiveLoop uid sid items ps ms = (ps', ms') →
      MovesOk ms → MovesOk ms' ∧ (ChainPairOk ps ms → ChainPairOk ps' ms') := by
  intro items
  induction items with
  | nil =>
    intro ps ms ps' ms' hC h
    simp only [receiveLoop, Prod.mk.injEq] at hC
    obtain ⟨h1, h2⟩ := hC
    subst h1; subst h2
    exact ⟨h, fun hc => hc⟩
  | cons it rest ih =>
    intro ps ms ps' ms' hC h
    cases hg : getProduct ps it.product with
    | none =>
      rw [receiveLoop, hg] at hC
      exact ih _ _ _ _ hC h
    | some p =>
      rw [receiveLoop, hg] at hC
      obtain ⟨h1, h2⟩ := ih _ _ _ _ hC
        (MovesOk_append ms _ h (by simp [mvFormulaB]))
      exact ⟨h1, fun hc => h2 (ChainPairOk_push ps ms _ _ p _ rfl hg rfl rfl hc)⟩

theorem ledger_autoReceiveLoop (uid sid : Nat) :
    ∀ (items : List PurchaseItem) (ps : ProductMap) (ms : List Mv)
      (ps' : ProductMap) (ms' : List Mv),
      autoReceiveLoop uid sid items ps ms = (ps', ms') →
      MovesOk ms → MovesOk ms' ∧ (ChainPairOk ps ms → ChainPairOk ps' ms') := by
  intro items
  induction items with
  | nil =>
    intro ps ms ps' ms' hC h
    simp only [autoReceiveLoop, Prod.mk.injEq] at hC
    obtain ⟨h1, h2⟩ := hC
    subst h1; subst h2
    exact ⟨h, fun hc => hc⟩
  | cons it rest ih =>
    intro ps ms ps' ms' hC h
    cases hg : getProduct ps it.product with
    | none =>
      rw [autoReceiveLoop, hg] at hC
      exact ih _ _ _ _ hC h
    | some p =>
      rw [autoReceiveLoop, hg] at hC
      obtain ⟨h1, h2⟩ := ih _ _ _ _ hC
        (MovesOk_append ms _ h (by simp [mvFormulaB]))
      exact ⟨h1, fun hc => h2 (ChainPairOk_push ps ms _ _ p _ rfl hg rfl rfl hc)⟩

theorem ledger_cancelPurLoop (uid : Nat) :
    ∀ (items : List PurchaseItem) (ps : ProductMap) (ms : List Mv)
      (ps' : ProductMap) (ms' : List Mv),
      cancelPurLoop uid items ps ms = (ps', ms') →
      MovesOk ms → MovesOk ms' ∧ (ChainPairOk ps ms → ChainPairOk ps' ms') := by
  intro items
  induction items with
  | nil =>
    intro ps ms ps' ms' hC h
    simp only [cancelPurLoop, Prod.mk.injEq] at hC
    obtain ⟨h1, h2⟩ := hC
    subst h1; subst h2
    exact ⟨h, fun hc => hc⟩
  | cons it rest ih =>
    intro ps ms ps' ms' hC h
    cases hg : getProduct ps it.product with
    | none =>
      rw [cancelPurLoop, hg] at hC
      exact ih _ _ _ _ hC h
    | some p =>
      rw [cancelPurLoop, hg] at hC
      obtain ⟨h1, h2⟩ := ih _ _ _ _ hC
        (MovesOk_append ms _ h (by simp [mvFormulaB]))
      exact ⟨h1, fun hc => h2 (ChainPairOk_push ps ms _ _ p _ rfl hg rfl rfl hc)⟩

theorem stockInv_receiveStock (st : St) (uid pid : Nat) (q c : ℚ) (sid : Option Nat)
    (h : MovesOk st.movements) :
    MovesOk (receiveStock st uid pid q c sid).1.movements ∧
    (ChainOk st → ChainOk (receiveStock st uid pid q c sid).1) := by
  unfold receiveStock
  cases hg : getProduct st.products pid with
  | none => exact ⟨h, id⟩
  | some p =>
    exact ⟨MovesOk_append _ _ h (by simp [mvFormulaB]),
      fun hc => ChainPairOk_push st.products st.movements _ _ p _ rfl hg rfl rfl hc⟩

theorem stockInv_adjustStock (st : St) (uid pid : Nat) (q : ℚ) (dir : AdjDir)
    (reason : MvReason) (h : MovesOk st.movements) :
    MovesOk (adjustStock st uid pid q dir reason).1.movements ∧
    (ChainOk st → ChainOk (adjustStock st uid pid q dir reason).1) := by
  unfold adjustStock
  by_cases h1 : validAdjReasons.contains reason = true
  · rw [if_neg (by simpa using h1)]
    cases hg : getProduct st.products pid with
    | none => exact ⟨h, id⟩
    | some p =>
      cases dir with
      | adjIn =>
        exact ⟨MovesOk_append _ _ h (by simp [mvFormulaB]),
          fun hc => ChainPairOk_push st.products st.movements _ _ p _ rfl hg rfl rfl hc⟩
      | adjOut =>
        by_cases h2 : q > p.currentStock
        · simp only [h2, if_true, ite_true]
          exact ⟨h, id⟩
        · simp only [h2, if_false, ite_false]
          exact ⟨MovesOk_append _ _ h (by simp [mvFormulaB]),
            fun hc => ChainPairOk_push st.products st.movements _ _ p _ rfl hg rfl rfl hc⟩
  · rw [if_pos (by simpa using h1)]
    exact ⟨h, id⟩

theorem movesOk_delete (st : St) (idx : Nat) (h : MovesOk st.movements) :
    MovesOk (deleteStockMovement st idx).1.movements := by
  unfold deleteStockMovement
  cases st.movements[idx]? with
  | none => exact h
  | some m =>
    intro x hx
    exact h x ((List.eraseIdx_sublist st.movements idx).subset hx)

theorem stockInv_update (st : St) (idx : Nat) (b : MvPatch) (h : MovesOk st.movements) :
    MovesOk (updateStockMovement st idx b).1.movements ∧
    (ChainOk st → ChainOk (updateStockMovement st idx b).1) := by
  unfold updateStockMovement
  cases hm : st.movements[idx]? with
  | none => exact ⟨h, id⟩
  | some m =>
    have hkeys : keysAll (st.movements.set idx (applyMvPatch m b)) = keysAll st.movements := by
      unfold keysAll
      exact map_set_cancel chainKey st.movements idx (applyMvPatch m b)
        (fun x hx => by
          rw [hm] at hx
          cases hx
          exact chainKey_patch m b)
    constructor
    · intro x hx
      rcases List.mem_or_eq_of_mem_set hx with hx | hx
      · exact h x hx
      · rw [hx, mvFormulaB_patch]
        exact h m (List.getElem?_mem hm)
    · intro hc pid p hp
      show linkedQ (keysFor pid (st.movements.set idx (applyMvPatch m b))) ∧
        lastOk (keysFor pid (st.movements.set idx (applyMvPatch m b))) p.currentStock
      have hk : keysFor pid (st.movements.set idx (applyMvPatch m b)) =
          keysFor pid st.movements := by
        unfold keysFor
        rw [hkeys]
      rw [hk]
      exact hc pid p hp

theorem stockInv_confirmInvoice (st : St) (uid : Nat) (h : MovesOk st.movements) :
    MovesOk (confirmInvoice st uid).1.movements ∧
    (ChainOk st → ChainOk (confirmInvoice st uid).1) := by
  unfold confirmInvoice
  by_cases h1 : st.invoice.status ≠ InvStatus.draft
  · rw [if_pos h1]; exact ⟨h, id⟩
  · rw [if_neg h1]
    rcases hE : confirmLoop uid st.invoice.items st.products st.movements with ⟨ps, ms, e⟩
    obtain ⟨hM, hC⟩ :=
      ledger_confirmLoop uid st.invoice.items st.products st.movements ps ms e hE h
    cases e with
    | none => exact ⟨hM, fun hc => hC hc⟩
    | some err => exact ⟨hM, fun hc => hC hc⟩

theorem stockInv_invoicePayment (st : St) (uid : Nat) (a : ℚ) (pm : PayMethod)
    (h : MovesOk st.movements) :
    MovesOk (recordInvoicePayment st uid a pm).1.movements ∧
    (ChainOk st → ChainOk (recordInvoicePayment st uid a pm).1) := by
  unfold recordInvoicePayment
  by_cases h1 : st.invoice.status = InvStatus.cancelled
  · rw [if_pos h1]; exact ⟨h, id⟩
  · rw [if_neg h1]
    by_cases h2 : a > st.invoice.balance
    · rw [if_pos h2]; exact ⟨h, id⟩
    · rw [if_neg h2]
      simp only []
      by_cases h3 : ¬ st.invoice.stockDeducted = true ∧ st.invoice.status = InvStatus.draft
      · rw [if_pos h3]
        obtain ⟨hM, hC⟩ := ledger_autoDeductLoop uid st.invoice.items st.products st.movements
          (autoDeductLoop uid st.invoice.items st.products st.movements).1
          (autoDeductLoop uid st.invoice.items st.products st.movements).2 rfl h
        exact ⟨hM, fun hc => hC hc⟩
      · rw [if_neg h3]
        exact ⟨h, id⟩

theorem stockInv_cancelInvoice (st : St) (uid : Nat) (r : String) (h : MovesOk st.movements) :
    MovesOk (cancelInvoice st uid r).1.movements ∧
    (ChainOk st → ChainOk (cancelInvoice st uid r).1) := by
  unfold cancelInvoice
  by_cases h1 : st.invoice.status = InvStatus.paid
  · rw [if_pos h1]; exact ⟨h, id⟩
  · rw [if_neg h1]
    by_cases h2 : st.invoice.stockDeducted = true
    · rw [if_pos h2]
      obtain ⟨hM, hC⟩ := ledger_cancelInvLoop uid st.invoice.items st.products st.movements
        (cancelInvLoop uid st.invoice.items st.products st.movements).1
        (cancelInvLoop uid st.invoice.items st.products st.movements).2 rfl h
      exact ⟨hM, fun hc => hC hc⟩
    · rw [if_neg h2]
      exact ⟨h, id⟩

theorem stockInv_receivePurchase (st : St) (uid : Nat) (h : MovesOk st.movements) :
    MovesOk (receivePurchase st uid).1.movements ∧
    (ChainOk st → ChainOk (receivePurchase st uid).1) := by
  unfold receivePurchase
  by_cases h1 : st.purchase.status ≠ PurStatus.draft ∧ st.purchase.status ≠ PurStatus.ordered
  · rw [if_pos h1]; exact ⟨h, id⟩
  · rw [if_neg h1]
    obtain ⟨hM, hC⟩ := ledger_receiveLoop uid st.purchase.supplier st.purchase.items
      st.products st.movements
      (receiveLoop uid st.purchase.supplier st.purchase.items st.products st.movements).1
      (receiveLoop uid st.purchase.supplier st.purchase.items st.products st.movements).2 rfl h
    exact ⟨hM, fun hc => hC hc⟩

theorem stockInv_purchasePayment (st : St) (uid : Nat) (a : ℚ) (pm : PayMethod)
    (h : MovesOk st.movements) :
    MovesOk (recordPurchasePayment st uid a pm).1.movements ∧
    (ChainOk st → ChainOk (recordPurchasePayment st uid a pm).1) := by
  unfold recordPurchasePayment
  by_cases h1 : st.purchase.status = PurStatus.cancelled
  · rw [if_pos h1]; exact ⟨h, id⟩
  · rw [if_neg h1]
    by_cases h2 : a > st.purchase.balance
    · rw [if_pos h2]; exact ⟨h, id⟩
    · rw [if_neg h2]
      simp only []
      by_cases h3 : ¬ st.purchase.stockAdded = true ∧ st.purchase.status = PurStatus.draft ∧
          (pm = PayMethod.cash ∨ pm = PayMethod.card)
      · rw [if_pos h3]
        obtain ⟨hM, hC⟩ := ledger_autoReceiveLoop uid st.purchase.supplier st.purchase.items
          st.products st.movements
          (autoReceiveLoop uid st.purchase.supplier st.purchase.items st.products st.movements).1
          (autoReceiveLoop uid st.purchase.supplier st.purchase.items st.products st.movements).2
          rfl h
        exact ⟨hM, fun hc => hC hc⟩
      · rw [if_neg h3]
        exact ⟨h, id⟩

theorem stockInv_cancelPurchase (st : St) (uid : Nat) (r : String) (h : MovesOk st.movements) :
    MovesOk (cancelPurchase st uid r).1.movements ∧
    (ChainOk st → ChainOk (cancelPurchase st uid r).1) := by
  unfold cancelPurchase
  by_cases h1 : st.purchase.status = PurStatus.paid
  · rw [if_pos h1]; exact ⟨h, id⟩
  · rw [if_neg h1]
    by_cases h2 : st.purchase.stockAdded = true
    · rw [if_pos h2]
      obtain ⟨hM, hC⟩ := ledger_cancelPurLoop uid st.purchase.items st.products st.movements
        (cancelPurLoop uid st.purchase.items st.products st.movements).1
        (cancelPurLoop uid st.purchase.items st.products st.movements).2 rfl h
      exact ⟨hM, fun hc => hC hc⟩
    · rw [if_neg h2]
      exact ⟨h, id⟩

theorem stockInv_step (st : St) (op : Op) (h : MovesOk st.movements) :
    MovesOk (step st op).1.movements ∧
    (isDeleteOp op = false → ChainOk st → ChainOk (step st op).1) := by
  cases op with
  | opReceiveStock uid pid q c sid =>
    obtain ⟨h1, h2⟩ := stockInv_receiveStock st uid pid q c sid h
    exact ⟨h1, fun _ => h2⟩
  | opAdjustStock uid pid q dir reason =>
    obtain ⟨h1, h2⟩ := stockInv_adjustStock st uid pid q dir reason h
    exact ⟨h1, fun _ => h2⟩
  | opDeleteMovement idx =>
    exact ⟨movesOk_delete st idx h, fun hfalse => absurd hfalse (by simp [isDeleteOp])⟩
  | opUpdateMovement idx b =>
    obtain ⟨h1, h2⟩ := stockInv_update st idx b h
    exact ⟨h1, fun _ => h2⟩
  | opConfirmInvoice uid =>
    obtain ⟨h1, h2⟩ := stockInv_confirmInvoice st uid h
    exact ⟨h1, fun _ => h2⟩
  | opInvoicePayment uid a pm =>
    obtain ⟨h1, h2⟩ := stockInv_invoicePayment st uid a pm h
    exact ⟨h1, fun _ => h2⟩
  | opCancelInvoice uid r =>
    obtain ⟨h1, h2⟩ := stockInv_cancelInvoice st uid r h
    exact ⟨h1, fun _ => h2⟩
  | opReceivePurchase uid =>
    obtain ⟨h1, h2⟩ := stockInv_receivePurchase st uid h
    exact ⟨h1, fun _ => h2⟩
  | opPurchasePayment uid a pm =>
    obtain ⟨h1, h2⟩ := stockInv_purchasePayment st uid a pm h
    exact ⟨h1, fun _ => h2⟩
  | opCancelPurchase uid r =>
    obtain ⟨h1, h2⟩ := stockInv_cancelPurchase st uid r h
    exact ⟨h1, fun _ => h2⟩

theorem stockInv_run (st : St) (ops : List Op) (h : MovesOk st.movements) :
    MovesOk (run st ops).movements ∧
    ((∀ op ∈ ops, isDeleteOp op = false) → ChainOk st → ChainOk (run st ops)) := by
  induction ops generalizing st with
  | nil => exact ⟨h, fun _ hc => hc⟩
  | cons op rest ih =>
    obtain ⟨h1, h2⟩ := stockInv_step st op h
    obtain ⟨h3, h4⟩ := ih (step st op).1 h1
    refine ⟨h3, fun hnd hc => ?_⟩
    exact h4 (fun o ho => hnd o (List.mem_cons_of_mem op ho))
      (h2 (hnd op (List.mem_cons_self op rest)) hc)

/-- C7 counterexample: receiving a 10-unit purchase into an empty product,
adjusting 8 units out, then cancelling the purchase yields the movement
chain (0,10), (10,2), (2,0) for the product; the final reversal movement has
quantity 10 but newStock clamped at 0 = max 0 (2 - 10), so the strict
newStock = previousStock - quantity formula of the claim fails on the
ledger. -/
theorem c7_counterexample :
    (run c7St0 c7Ops).movements.map chainKey =
      [(1, 0, 10), (1, 10, 2), (1, 2, 0)] ∧
    (run c7St0 c7Ops).movements.all mvStrictFormulaB = false := by
  constructor <;>
    norm_num +decide [c7St0, c7Ops, prodMap0, pitm7, emptyInv, run, step,
      createPurchase, purchaseSaveHook, purchaseApplyStatus, purchaseRecomputeTotals,
      purRounded, purGrand, purSubtotal, purTotalDiscount, purTotalTaxA, purTotalTaxB,
      purTotalAEx, purTotalB18, purHookItem, purItemNet, jsRound2,
      receivePurchase, receiveLoop, receivePurchaseCost, getProduct, setProduct,
      adjustStock, validAdjReasons, cancelPurchase, cancelPurLoop,
      chainKey, mvStrictFormulaB, List.all]

/-- C7 (amended): starting from an empty movement ledger, every movement
record ever created satisfies newStock = previousStock + quantity for
inbound movements, newStock = previousStock - quantity for outbound
movements except the cancelPurchase reversal where newStock is clamped to
max 0 (previousStock - quantity), and either sign for adjustments; and in
any trace without movement deletions the per-product movement snapshots
chain without gaps and end at the product's current stock. -/
theorem c7_amended (st0 : St) (ops : List Op) (h0 : st0.movements = []) :
    (∀ m ∈ (run st0 ops).movements, mvFormulaB m = true) ∧
    ((∀ op ∈ ops, isDeleteOp op = false) → ChainOk (run st0 ops)) := by
  have hM : MovesOk st0.movements := by
    rw [h0]
    intro m hm
    cases hm
  have hC : ChainOk st0 := by
    intro pid p _
    rw [h0]
    simp [keysFor, keysAll, linkedQ, lastOk]
  obtain ⟨h1, h2⟩ := stockInv_run st0 ops hM
  exact ⟨h1, fun hnd => h2 hnd hC⟩

/-- C7 witness: the amended ledger invariants instantiated on the concrete
three-operation trace of the counterexample store. -/
theorem c7_witness :
    c7St0.movements = [] ∧
    ((∀ m ∈ (run c7St0 c7Ops).movements, mvFormulaB m = true) ∧
     ((∀ op ∈ c7Ops, isDeleteOp op = false) → ChainOk (run c7St0 c7Ops))) :=
  ⟨rfl, c7_amended c7St0 c7Ops rfl⟩

end StockMgmt
